import Mathlib

/-!
Shallow embedding of the correlation core of the weather-vs-stock repository
(`backend/app/utils/correlation.py`), together with proofs settling the
frozen claims about it.

Modelling conventions:
* Python/numpy floating-point values are modelled exactly: a value is either
  a finite real number (`RF.fin x`, arithmetic exact over `ℝ`), `nan`,
  `+inf` or `-inf`.  Rounding is not modelled; the special-value propagation
  rules of numpy (`log 0 = -inf`, `exp (-inf) = 0`, `x / 0 = ±inf` under
  numpy, nan absorption, ...) are modelled faithfully, because several
  claims hinge on them.
* Calendar dates are modelled as integers; the source keys both series by
  `data.date.date()` (the calendar day with the time component truncated),
  so the `date` field of the model is that calendar day.
* `scipy.stats.pearsonr` is external library code.  Its behaviour is
  modelled from its documented contract: constant input (zero variance)
  produces a `ConstantInputWarning` and the value `(nan, nan)` — it does
  not raise; two-element input returns `sign (x1-x0) * sign (y1-y0)` with
  p-value `1.0`; otherwise the Pearson coefficient with a p-value obtained
  from the Student-t survival function.  That survival function is a
  transcendental routine none of the claims constrain, so it is taken as a
  parameter `pval` of the model and every theorem holds for all of it.
* `scipy.stats.norm.ppf` (the standard normal quantile) is modelled as the
  generalized inverse of the CDF of the Mathlib Gaussian measure.
* `pandas.merge(..., on='date', how='inner')` requires the `date` column to
  exist in both frames; a frame built from an empty observation list has no
  columns, so the merge raises `KeyError: 'date'`.  The aligner is therefore
  modelled as returning `Except`: an error for an empty input list, and
  otherwise the inner-join rows, which pandas emits in the order of the
  left (weather) keys, with each left row followed by all matching right
  rows in right order.
-/

namespace WeatherStock

/-- Model of a numpy/Python double: a finite real (exact), nan, or a signed
infinity. -/
inductive RF where
  | nan : RF
  | pinf : RF
  | ninf : RF
  | fin (x : ℝ) : RF

/-- IEEE negation. -/
def RF.neg : RF → RF
  | .nan => .nan
  | .pinf => .ninf
  | .ninf => .pinf
  | .fin x => .fin (-x)

/-- IEEE addition: nan absorbs, opposite infinities give nan. -/
def RF.add : RF → RF → RF
  | .nan, _ => .nan
  | _, .nan => .nan
  | .pinf, .ninf => .nan
  | .ninf, .pinf => .nan
  | .pinf, _ => .pinf
  | _, .pinf => .pinf
  | .ninf, _ => .ninf
  | _, .ninf => .ninf
  | .fin x, .fin y => .fin (x + y)

/-- IEEE subtraction, as addition of the negation. -/
def RF.sub (a b : RF) : RF := a.add b.neg

/-- IEEE multiplication: nan absorbs, `inf * 0 = nan`, signs multiply. -/
noncomputable def RF.mul : RF → RF → RF
  | .nan, _ => .nan
  | _, .nan => .nan
  | .pinf, .pinf => .pinf
  | .pinf, .ninf => .ninf
  | .ninf, .pinf => .ninf
  | .ninf, .ninf => .pinf
  | .pinf, .fin y => if y < 0 then .ninf else if y = 0 then .nan else .pinf
  | .ninf, .fin y => if y < 0 then .pinf else if y = 0 then .nan else .ninf
  | .fin x, .pinf => if x < 0 then .ninf else if x = 0 then .nan else .pinf
  | .fin x, .ninf => if x < 0 then .pinf else if x = 0 then .nan else .ninf
  | .fin x, .fin y => .fin (x * y)

/-- numpy division: nan absorbs, `inf / inf = nan`, `finite / inf = 0`,
`x / 0` is `nan` for `x = 0` and a signed infinity otherwise (numpy warns
but does not raise).  The exact-real model has a single unsigned zero, whose
divisions carry the sign of the numerator. -/
noncomputable def RF.div : RF → RF → RF
  | .nan, _ => .nan
  | _, .nan => .nan
  | .pinf, .pinf => .nan
  | .pinf, .ninf => .nan
  | .ninf, .pinf => .nan
  | .ninf, .ninf => .nan
  | .fin _, .pinf => .fin 0
  | .fin _, .ninf => .fin 0
  | .pinf, .fin y => if y < 0 then .ninf else .pinf
  | .ninf, .fin y => if y < 0 then .pinf else .ninf
  | .fin x, .fin y =>
      if y = 0 then (if x = 0 then .nan else if x < 0 then .ninf else .pinf)
      else .fin (x / y)

/-- IEEE absolute value. -/
def RF.abs : RF → RF
  | .nan => .nan
  | .pinf => .pinf
  | .ninf => .pinf
  | .fin x => .fin |x|

/-- `numpy.exp` on special values. -/
noncomputable def RF.exp : RF → RF
  | .nan => .nan
  | .pinf => .pinf
  | .ninf => .fin 0
  | .fin x => .fin (Real.exp x)

/-- `numpy.log`: `log 0 = -inf`, `log x = nan` for `x < 0` (warnings, not
exceptions). -/
noncomputable def RF.log : RF → RF
  | .nan => .nan
  | .pinf => .pinf
  | .ninf => .nan
  | .fin x => if x < 0 then .nan else if x = 0 then .ninf else .fin (Real.log x)

/-- `numpy.sqrt`: nan on negative input. -/
noncomputable def RF.sqrt : RF → RF
  | .nan => .nan
  | .pinf => .pinf
  | .ninf => .nan
  | .fin x => if x < 0 then .nan else .fin (Real.sqrt x)

/-- IEEE comparison `a < c` against a finite bound: false whenever `a` is
nan (this is how a Python `<` behaves on a nan operand). -/
noncomputable def RF.ltb : RF → ℝ → Bool
  | .nan, _ => false
  | .pinf, _ => false
  | .ninf, _ => true
  | .fin x, c => decide (x < c)

/-- Weather observation (`WeatherData` in `app/models/weather.py`); the
fields the correlation core never reads (high/low temperature, condition)
are omitted.  `date` is the calendar day. -/
structure WeatherData where
  date : ℤ
  city : String
  temperature_avg : ℝ
  precipitation : ℝ
  humidity : ℝ
  wind_speed : ℝ
  pressure : ℝ

/-- Stock observation (`StockData` in `app/models/stocks.py`); open, high
and low prices are never read by the core and are omitted.  The integer
volume enters all computations as a real number. -/
structure StockData where
  date : ℤ
  symbol : String
  close_price : ℝ
  percentage_change : ℝ
  volume : ℝ

/-- One row of the merged dataframe produced by
`pd.merge(weather_df, stock_df, on='date', how='inner')`. -/
structure AlignedRow where
  date : ℤ
  temperature_avg : ℝ
  precipitation : ℝ
  humidity : ℝ
  wind_speed : ℝ
  pressure : ℝ
  close_price : ℝ
  percentage_change : ℝ
  volume : ℝ

/-- The merged row combining a weather and a stock observation that share a
calendar date. -/
def mkRow (wd : WeatherData) (sd : StockData) : AlignedRow where
  date := wd.date
  temperature_avg := wd.temperature_avg
  precipitation := wd.precipitation
  humidity := wd.humidity
  wind_speed := wd.wind_speed
  pressure := wd.pressure
  close_price := sd.close_price
  percentage_change := sd.percentage_change
  volume := sd.volume

/-- Inner-join rows of the merge: pandas preserves the order of the left
(weather) keys, each weather row followed by all stock rows of equal date in
stock order. -/
def joinRows (w : List WeatherData) (s : List StockData) : List AlignedRow :=
  w.flatMap fun wd => (s.filter fun sd => sd.date == wd.date).map (mkRow wd)

/-- `align_weather_stock_data` (correlation.py:66).  A dataframe built from
an empty list has no columns, so `pd.merge(..., on='date')` raises
`KeyError: 'date'`; with both inputs non-empty the merge succeeds and yields
the inner-join rows (the source then returns the weather and stock column
slices of this single merged frame; all consumers read only columns, so the
merged row list carries the same information). -/
def align_weather_stock_data (w : List WeatherData) (s : List StockData) :
    Except String (List AlignedRow) :=
  if w.isEmpty ∨ s.isEmpty then .error "KeyError: date"
  else .ok (joinRows w s)

/-- `CorrelationStrength` (app/models/correlation.py). -/
inductive CorrelationStrength where
  | weak : CorrelationStrength
  | moderate : CorrelationStrength
  | strong : CorrelationStrength
deriving DecidableEq

/-- `calculate_correlation_strength` (correlation.py:14): buckets the
absolute coefficient at 0.3 and 0.7; a nan coefficient fails both `<` tests
and lands in `strong`. -/
noncomputable def calculate_correlation_strength (c : RF) : CorrelationStrength :=
  if (RF.abs c).ltb 0.3 then .weak
  else if (RF.abs c).ltb 0.7 then .moderate
  else .strong

/-- Mean of a list of reals (`x.mean()`; junk value `0/0 = 0` on the empty
list, an argument no caller produces). -/
noncomputable def lmean (l : List ℝ) : ℝ := l.sum / l.length

/-- Centered sum of squares `Σ (xᵢ - x̄)²` of a column. -/
noncomputable def css (l : List ℝ) : ℝ := (l.map fun x => (x - lmean l) ^ 2).sum

/-- Centered sum of products `Σ (xᵢ - x̄)(yᵢ - ȳ)` of two equal-length
columns. -/
noncomputable def csp (x y : List ℝ) : ℝ :=
  ((x.zip y).map fun p => (p.1 - lmean x) * (p.2 - lmean y)).sum

/-- The Pearson product-moment coefficient
`Σ(xᵢ-x̄)(yᵢ-ȳ) / √(Σ(xᵢ-x̄)² · Σ(yᵢ-ȳ)²)`, the value scipy computes as the
dot product of the two normalized centered columns (scipy additionally clips
the float result into `[-1, 1]`; over exact reals Cauchy-Schwarz makes the
clip the identity, see `abs_pearsonR_le_one`). -/
noncomputable def pearsonR (x y : List ℝ) : ℝ :=
  csp x y / Real.sqrt (css x * css y)

/-- A column is constant when every entry equals the first
(`(x == x[0]).all()` in scipy). -/
def constCol (l : List ℝ) : Prop := ∀ y ∈ l, y = l.headD 0

open Classical in
/-- `calculate_correlation_with_p_value` (correlation.py:25).  The guard
returns the `(0.0, 1.0)` default for unequal lengths or fewer than two
points.  Otherwise `scipy.stats.pearsonr` runs: a constant column produces a
`ConstantInputWarning` and the value `(nan, nan)` — no exception fires, so
the `except` branch is dead and the nan pair is returned to the caller;
two-element input returns the sign product with p-value 1; otherwise the
Pearson coefficient together with a two-sided Student-t p-value.  The
Student-t survival machinery is transcendental library code no claim
constrains, so the p-value of the generic branch is `pval n r` for a
parameter `pval` of the whole model. -/
noncomputable def calculate_correlation_with_p_value (pval : ℕ → ℝ → ℝ)
    (x y : List ℝ) : RF × RF :=
  if x.length ≠ y.length ∨ x.length < 2 then (.fin 0, .fin 1)
  else if constCol x ∨ constCol y then (.nan, .nan)
  else if x.length = 2 then
    (.fin (Real.sign (x.getD 1 0 - x.getD 0 0) * Real.sign (y.getD 1 0 - y.getD 0 0)),
      .fin 1)
  else (.fin (pearsonR x y), .fin (pval x.length (pearsonR x y)))

/-- CDF of the standard normal distribution, from the Mathlib Gaussian
measure. -/
noncomputable def stdNormalCDF (x : ℝ) : ℝ :=
  (ProbabilityTheory.gaussianReal 0 1 (Set.Iic x)).toReal

/-- `scipy.stats.norm.ppf`, the quantile of the standard normal
distribution, as the generalized inverse of its CDF. -/
noncomputable def normPpf (p : ℝ) : ℝ := sInf {x : ℝ | p ≤ stdNormalCDF x}

/-- CPython float division: raises `ZeroDivisionError` exactly when the
divisor is the finite zero (a nan or infinite divisor never raises); any
other division follows the numpy rules. -/
noncomputable def pyDiv (a b : RF) : Except String RF :=
  match b with
  | .fin y => if y = 0 then .error "ZeroDivisionError" else .ok (RF.div a (.fin y))
  | b => .ok (RF.div a b)

/-- `calculate_confidence_interval` (correlation.py:37).  `n < 3` returns
`[0.0, 0.0]`.  The only statement of the `try` block that can raise is the
plain-float division `(1 + r) / (1 - r)` (ZeroDivisionError at `r = 1`),
which the `except` maps to `[0.0, 0.0]`; everything after it is numpy
arithmetic that saturates through `-inf`/`nan` instead of raising.  The
source's `confidence` parameter defaults to 0.95; callers in this model
always pass it explicitly. -/
noncomputable def calculate_confidence_interval (r : RF) (n : ℕ) (confidence : ℝ) :
    List RF :=
  if n < 3 then [.fin 0, .fin 0]
  else
    match pyDiv (RF.add (.fin 1) r) (RF.sub (.fin 1) r) with
    | .error _ => [.fin 0, .fin 0]
    | .ok q =>
      let z_corr := RF.mul (.fin (1 / 2)) (RF.log q)
      let se := RF.div (.fin 1) (RF.sqrt (.fin ((n : ℝ) - 3)))
      let z_critical : RF := .fin (normPpf (1 - (1 - confidence) / 2))
      let z_lower := RF.sub z_corr (RF.mul z_critical se)
      let z_upper := RF.add z_corr (RF.mul z_critical se)
      let lower := RF.div (RF.sub (RF.exp (RF.mul (.fin 2) z_lower)) (.fin 1))
        (RF.add (RF.exp (RF.mul (.fin 2) z_lower)) (.fin 1))
      let upper := RF.div (RF.sub (RF.exp (RF.mul (.fin 2) z_upper)) (.fin 1))
        (RF.add (RF.exp (RF.mul (.fin 2) z_upper)) (.fin 1))
      [lower, upper]

/-- `CorrelationAnalysis` (app/models/correlation.py).  The pydantic model
places no range constraint on any field, so construction never fails; every
numeric field is a plain float. -/
structure CorrelationAnalysis where
  symbol : String
  city : String
  timeframe : String
  start_date : ℤ
  end_date : ℤ
  temperature_correlation : RF
  precipitation_correlation : RF
  humidity_correlation : RF
  wind_speed_correlation : RF
  pressure_correlation : RF
  temperature_p_value : RF
  precipitation_p_value : RF
  humidity_p_value : RF
  wind_speed_p_value : RF
  pressure_p_value : RF
  temperature_strength : CorrelationStrength
  precipitation_strength : CorrelationStrength
  humidity_strength : CorrelationStrength
  wind_speed_strength : CorrelationStrength
  pressure_strength : CorrelationStrength
  overall_correlation : RF
  confidence_interval : List RF
  r_squared : RF
  sample_size : ℕ

/-- `np.mean` of the list of the five absolute coefficients: their sum
(left to right) divided by 5. -/
noncomputable def meanAbs5 (a b c d e : RF) : RF :=
  RF.div ((((a.abs.add b.abs).add c.abs).add d.abs).add e.abs) (.fin 5)

/-- The `CorrelationAnalysis` record assembled by
`perform_correlation_analysis` (correlation.py:122-184) once alignment
succeeded with a non-empty merge: the five per-variable correlations
against the close price, their absolute mean, and the derived metrics.
The aligner KeyError propagates (nothing catches it) and an empty merge
raises `ValueError("No overlapping data found for correlation analysis")`
in `perform_correlation_analysis` below. -/
noncomputable def analysisRecord (pval : ℕ → ℝ → ℝ) (rows : List AlignedRow)
    (symbol city timeframe : String) (start_date end_date : ℤ) :
    CorrelationAnalysis :=
  let close := rows.map (·.close_price)
  let tc := calculate_correlation_with_p_value pval (rows.map (·.temperature_avg)) close
  let pc := calculate_correlation_with_p_value pval (rows.map (·.precipitation)) close
  let hc := calculate_correlation_with_p_value pval (rows.map (·.humidity)) close
  let wc := calculate_correlation_with_p_value pval (rows.map (·.wind_speed)) close
  let prc := calculate_correlation_with_p_value pval (rows.map (·.pressure)) close
  let overall := meanAbs5 tc.1 pc.1 hc.1 wc.1 prc.1
  { symbol := symbol
    city := city
    timeframe := timeframe
    start_date := start_date
    end_date := end_date
    temperature_correlation := tc.1
    precipitation_correlation := pc.1
    humidity_correlation := hc.1
    wind_speed_correlation := wc.1
    pressure_correlation := prc.1
    temperature_p_value := tc.2
    precipitation_p_value := pc.2
    humidity_p_value := hc.2
    wind_speed_p_value := wc.2
    pressure_p_value := prc.2
    temperature_strength := calculate_correlation_strength tc.1
    precipitation_strength := calculate_correlation_strength pc.1
    humidity_strength := calculate_correlation_strength hc.1
    wind_speed_strength := calculate_correlation_strength wc.1
    pressure_strength := calculate_correlation_strength prc.1
    overall_correlation := overall
    confidence_interval := calculate_confidence_interval overall rows.length 0.95
    r_squared := RF.mul overall overall
    sample_size := rows.length }

/-- `perform_correlation_analysis` (correlation.py:103), success branch
factored into `analysisRecord`. -/
noncomputable def perform_correlation_analysis (pval : ℕ → ℝ → ℝ)
    (weather_data : List WeatherData) (stock_data : List StockData)
    (symbol city timeframe : String) (start_date end_date : ℤ) :
    Except String CorrelationAnalysis :=
  match align_weather_stock_data weather_data stock_data with
  | .error e => .error e
  | .ok rows =>
    if rows.isEmpty then .error "No overlapping data found for correlation analysis"
    else .ok (analysisRecord pval rows symbol city timeframe start_date end_date)

/-- `CorrelationMatrix` (app/models/correlation.py). -/
structure CorrelationMatrix where
  «variables» : List String
  matrix : List (List RF)
  p_values : List (List RF)

open Classical in
/-- One entry of `DataFrame.corr()`: pandas computes
`cov / sqrt(var_x * var_y)` and yields nan when either column has zero
variance (in particular on a constant column, and on every entry of a
one-row frame — the diagonal included). -/
noncomputable def pandasCorr (x y : List ℝ) : RF :=
  if css x = 0 ∨ css y = 0 then .nan else .fin (pearsonR x y)

/-- The fixed variable order of the combined dataframe. -/
def matrixVariables : List String :=
  ["temperature_avg", "precipitation", "humidity", "wind_speed", "pressure",
   "close_price", "percentage_change", "volume"]

/-- The eight numeric columns of the combined dataframe, in
`matrixVariables` order. -/
def matrixColumns (rows : List AlignedRow) : List (List ℝ) :=
  [rows.map (·.temperature_avg), rows.map (·.precipitation), rows.map (·.humidity),
   rows.map (·.wind_speed), rows.map (·.pressure), rows.map (·.close_price),
   rows.map (·.percentage_change), rows.map (·.volume)]

/-- The matrix assembled by `create_correlation_matrix` on a non-empty
merge: the coefficient matrix is `combined_df.corr()` and the p-value
matrix fixes the diagonal to 0.0 and fills off-diagonal entries through
`calculate_correlation_with_p_value`. -/
noncomputable def matrixRecord (pval : ℕ → ℝ → ℝ) (rows : List AlignedRow) :
    CorrelationMatrix :=
  let cols := matrixColumns rows
  { «variables» := matrixVariables
    matrix := cols.map fun ci => cols.map fun cj => pandasCorr ci cj
    p_values := (List.range cols.length).map fun i =>
      (List.range cols.length).map fun j =>
        if i = j then .fin 0
        else (calculate_correlation_with_p_value pval (cols.getD i [])
          (cols.getD j [])).2 }

/-- `create_correlation_matrix` (correlation.py:188).  The aligner KeyError
propagates; an empty merge degrades to the empty matrix. -/
noncomputable def create_correlation_matrix (pval : ℕ → ℝ → ℝ)
    (weather_data : List WeatherData) (stock_data : List StockData) :
    Except String CorrelationMatrix :=
  match align_weather_stock_data weather_data stock_data with
  | .error e => .error e
  | .ok rows =>
    if rows.isEmpty then .ok { «variables» := [], matrix := [], p_values := [] }
    else .ok (matrixRecord pval rows)

/-- A significant event (the dict built at correlation.py:265); the
human-readable `description` string-formats floats and is not modelled. -/
structure SignificantEvent where
  date : ℤ
  city : String
  event_type : String
  market_impact : ℝ
  correlation_impact : ℝ

/-- The extreme-weather classification (correlation.py:246): an
`if`/`elif` chain, first match wins. -/
noncomputable def eventTypeOf (w : WeatherData) : Option String :=
  if 35 < w.temperature_avg then some "extreme_heat"
  else if w.temperature_avg < -10 then some "extreme_cold"
  else if 50 < w.precipitation then some "heavy_rain"
  else if 20 < w.wind_speed then some "high_winds"
  else none

/-- The date-keyed stock dictionary (correlation.py:236): a dict
comprehension, so on duplicate calendar dates the last stock row wins. -/
def stockOnDate (s : List StockData) (d : ℤ) : Option StockData :=
  s.reverse.find? fun sd => sd.date == d

/-- The unsorted event list: one event per weather observation that is
extreme and has a same-date stock row, in weather input order, carrying the
stock day's percentage change and its absolute value.  (The source's early
`return []` on an empty input list equals this value there.) -/
noncomputable def significantEventsRaw (w : List WeatherData) (s : List StockData) :
    List SignificantEvent :=
  w.filterMap fun wd =>
    match eventTypeOf wd, stockOnDate s wd.date with
    | some et, some sd =>
      some { date := wd.date, city := wd.city, event_type := et,
             market_impact := sd.percentage_change,
             correlation_impact := |sd.percentage_change| }
    | _, _ => none

/-- Stable descending insertion on the `correlation_impact` key: walk past
strictly larger keys, stop at the first `≤` key, so an element inserted
later but encountered earlier in the input precedes equal keys. -/
noncomputable def insertDesc (e : SignificantEvent) :
    List SignificantEvent → List SignificantEvent
  | [] => [e]
  | a :: as =>
    if e.correlation_impact < a.correlation_impact then a :: insertDesc e as
    else e :: a :: as

/-- The stable descending sort on `correlation_impact`.  Python's
`list.sort(key=..., reverse=True)` is stable, and a stable sort is the
unique permutation that is sorted on the key and keeps equal keys in
encounter order, so this insertion sort computes the same list. -/
noncomputable def sortDesc : List SignificantEvent → List SignificantEvent
  | [] => []
  | x :: xs => insertDesc x (sortDesc xs)

/-- `detect_significant_events` (correlation.py:228): sort all events by
descending impact, keep the top 10. -/
noncomputable def detect_significant_events (w : List WeatherData)
    (s : List StockData) : List SignificantEvent :=
  (sortDesc (significantEventsRaw w s)).take 10

/-- A concrete instantiation of the Student-t p-value parameter, used only
to state closed counterexamples; the refuted quantities never depend on it. -/
def pval0 : ℕ → ℝ → ℝ := fun _ _ => 0

/-- A concrete stock observation. -/
def sd0 : StockData :=
  { date := 0, symbol := "AAPL", close_price := 1,
    percentage_change := 0, volume := 1 }

/-- A concrete weather observation sharing `sd0`'s calendar date. -/
def wd0 : WeatherData :=
  { date := 0, city := "NYC", temperature_avg := 1,
    precipitation := 2, humidity := 3, wind_speed := 4, pressure := 5 }

/-- Three weather days whose stock counterpart has a constant close price:
every per-variable correlation is then scipy's constant-input nan. -/
def wNan : List WeatherData :=
  [{ date := 0, city := "NYC", temperature_avg := 0, precipitation := 0,
     humidity := 0, wind_speed := 0, pressure := 0 },
   { date := 1, city := "NYC", temperature_avg := 1, precipitation := 0,
     humidity := 0, wind_speed := 0, pressure := 0 },
   { date := 2, city := "NYC", temperature_avg := 2, precipitation := 0,
     humidity := 0, wind_speed := 0, pressure := 0 }]

/-- Three stock days with a constant close price on the calendar dates of
`wNan`. -/
def sNan : List StockData :=
  [{ date := 0, symbol := "AAPL", close_price := 1, percentage_change := 0, volume := 1 },
   { date := 1, symbol := "AAPL", close_price := 1, percentage_change := 0, volume := 1 },
   { date := 2, symbol := "AAPL", close_price := 1, percentage_change := 0, volume := 1 }]

/-- Weather list with out-of-order and duplicated calendar dates. -/
def wDup : List WeatherData :=
  [{ date := 2, city := "NYC", temperature_avg := 0, precipitation := 0,
     humidity := 0, wind_speed := 0, pressure := 0 },
   { date := 1, city := "NYC", temperature_avg := 0, precipitation := 0,
     humidity := 0, wind_speed := 0, pressure := 0 },
   { date := 1, city := "NYC", temperature_avg := 0, precipitation := 0,
     humidity := 0, wind_speed := 0, pressure := 0 }]

/-- Stock list with duplicated calendar dates matching `wDup`. -/
def sDup : List StockData :=
  [{ date := 1, symbol := "AAPL", close_price := 1, percentage_change := 0, volume := 1 },
   { date := 1, symbol := "AAPL", close_price := 1, percentage_change := 0, volume := 1 },
   { date := 2, symbol := "AAPL", close_price := 1, percentage_change := 0, volume := 1 }]

/-- Two well-formed weather days (distinct ascending dates, non-constant
columns). -/
def wTwo : List WeatherData :=
  [{ date := 1, city := "NYC", temperature_avg := 0, precipitation := 0,
     humidity := 0, wind_speed := 0, pressure := 0 },
   { date := 2, city := "NYC", temperature_avg := 1, precipitation := 1,
     humidity := 1, wind_speed := 1, pressure := 1 }]

/-- Two stock days on the dates of `wTwo`. -/
def sTwo : List StockData :=
  [{ date := 1, symbol := "AAPL", close_price := 1, percentage_change := 0, volume := 1 },
   { date := 2, symbol := "AAPL", close_price := 2, percentage_change := 1, volume := 2 }]

/-- An extreme-heat day (the spec's own example: 36°C). -/
def wHot : WeatherData :=
  { date := 0, city := "NYC", temperature_avg := 36,
    precipitation := 0, humidity := 0, wind_speed := 0, pressure := 0 }

/-- The matching stock day with percentage change −3.2. -/
def sHot : StockData :=
  { date := 0, symbol := "AAPL", close_price := 1,
    percentage_change := -3.2, volume := 1 }

/-! Theorems.  Helper lemmas come first, then one theorem per claim
(plus its witness or counterexample where required). -/

/-- C4: for every real coefficient `r`, the strength classifier returns
`weak` iff `|r| < 0.3`, `moderate` iff `0.3 ≤ |r| < 0.7` and `strong` iff
`0.7 ≤ |r|`; the boundary 0.3 is moderate and 0.7 is strong. -/
theorem C4_classify_strength :
    ∀ r : ℝ,
      (calculate_correlation_strength (.fin r) = .weak ↔ |r| < 0.3) ∧
      (calculate_correlation_strength (.fin r) = .moderate ↔ 0.3 ≤ |r| ∧ |r| < 0.7) ∧
      (calculate_correlation_strength (.fin r) = .strong ↔ 0.7 ≤ |r|) ∧
      calculate_correlation_strength (.fin (0.3 : ℝ)) = .moderate ∧
      calculate_correlation_strength (.fin (0.7 : ℝ)) = .strong := by
  have key : ∀ r : ℝ,
      (calculate_correlation_strength (.fin r) = .weak ↔ |r| < 0.3) ∧
      (calculate_correlation_strength (.fin r) = .moderate ↔ 0.3 ≤ |r| ∧ |r| < 0.7) ∧
      (calculate_correlation_strength (.fin r) = .strong ↔ 0.7 ≤ |r|) := by
    intro r
    simp only [calculate_correlation_strength, RF.abs, RF.ltb, decide_eq_true_eq]
    split_ifs with h1 h2
    · exact ⟨iff_of_true rfl h1,
        iff_of_false (by decide) (fun h => absurd h1 (not_lt.2 h.1)),
        iff_of_false (by decide) (fun h => absurd h1 (not_lt.2 (by linarith)))⟩
    · exact ⟨iff_of_false (by decide) h1,
        iff_of_true rfl ⟨le_of_not_lt h1, h2⟩,
        iff_of_false (by decide) (not_le.2 h2)⟩
    · exact ⟨iff_of_false (by decide) h1,
        iff_of_false (by decide) (fun h => absurd h.2 h2),
        iff_of_true rfl (le_of_not_lt h2)⟩
  intro r
  refine ⟨(key r).1, (key r).2.1, (key r).2.2, ?_, ?_⟩
  · exact ((key 0.3).2.1).2
      (by rw [abs_of_nonneg (by norm_num : (0:ℝ) ≤ 0.3)]; norm_num)
  · exact ((key 0.7).2.2).2
      (by rw [abs_of_nonneg (by norm_num : (0:ℝ) ≤ 0.7)])

/-- C10: sequences of unequal lengths hit the guard and receive the same
`(0.0, 1.0)` default as degenerate inputs, for every p-value routine. -/
theorem C10_unequal_lengths (pval : ℕ → ℝ → ℝ) (x y : List ℝ)
    (h : x.length ≠ y.length) :
    calculate_correlation_with_p_value pval x y = (.fin 0, .fin 1) := by
  rw [calculate_correlation_with_p_value, if_pos (Or.inl h)]

/-- Witness for C10 at the concrete pair `[0]`, `[]`. -/
theorem C10_unequal_lengths_witness :
    ([(0 : ℝ)].length ≠ ([] : List ℝ).length) ∧
    calculate_correlation_with_p_value pval0 [(0 : ℝ)] [] = (.fin 0, .fin 1) :=
  ⟨by simp, C10_unequal_lengths pval0 [(0 : ℝ)] [] (by simp)⟩

/-- C3: evaluating the code at the claim's own example.  The guard passes
(equal lengths, three points), scipy's constant-input path returns
`(nan, nan)` with a warning instead of raising, so the `except` fallback
never fires and the caller receives `(nan, nan)`, not the claimed
`(0.0, 1.0)`. -/
theorem C3_constant_input_nan :
    calculate_correlation_with_p_value pval0 [1, 1, 1] [2, 3, 4] = (.nan, .nan) ∧
    ((RF.nan, RF.nan) : RF × RF) ≠ (.fin 0, .fin 1) := by
  constructor
  · have h1 : ¬(([1, 1, 1] : List ℝ).length ≠ ([2, 3, 4] : List ℝ).length ∨
        ([1, 1, 1] : List ℝ).length < 2) := by simp
    have h2 : constCol [1, 1, 1] ∨ constCol [(2 : ℝ), 3, 4] := by
      left
      intro y hy
      simp only [List.headD_cons]
      simp only [List.mem_cons, List.not_mem_nil, or_false] at hy
      rcases hy with h | h | h <;> exact h
    rw [calculate_correlation_with_p_value, if_neg h1, if_pos h2]
  · intro h
    exact RF.noConfusion (congrArg Prod.fst h)

/-- The inner join is empty exactly when no calendar date is shared. -/
theorem joinRows_eq_nil_iff (w : List WeatherData) (s : List StockData) :
    joinRows w s = [] ↔ ¬ ∃ wd ∈ w, ∃ sd ∈ s, wd.date = sd.date := by
  rw [joinRows]
  constructor
  · intro h hex
    obtain ⟨wd, hwd, sd, hsd, hdate⟩ := hex
    have hmem : mkRow wd sd ∈
        w.flatMap fun wd => (s.filter fun sd => sd.date == wd.date).map (mkRow wd) := by
      refine List.mem_flatMap.2 ⟨wd, hwd, List.mem_map_of_mem _ ?_⟩
      exact List.mem_filter.2 ⟨hsd, by simp [hdate]⟩
    rw [h] at hmem
    exact List.not_mem_nil _ hmem
  · intro h
    rw [List.flatMap_eq_nil_iff]
    intro wd hwd
    rw [List.map_eq_nil_iff, List.filter_eq_nil_iff]
    intro sd hsd hbeq
    exact h ⟨wd, hwd, sd, hsd, (beq_iff_eq.1 hbeq).symm⟩

/-- The aligner succeeds exactly on non-empty inputs, with the inner-join
rows. -/
theorem align_ok (w : List WeatherData) (s : List StockData)
    (hw : w ≠ []) (hs : s ≠ []) :
    align_weather_stock_data w s = .ok (joinRows w s) := by
  rw [align_weather_stock_data, if_neg]
  simp [hw, hs]

/-- Unfolding of the analyzer once alignment succeeds. -/
theorem perform_unfold (pval : ℕ → ℝ → ℝ) (w : List WeatherData)
    (s : List StockData) (sym city tf : String) (sd ed : ℤ)
    (hw : w ≠ []) (hs : s ≠ []) :
    perform_correlation_analysis pval w s sym city tf sd ed =
      if (joinRows w s).isEmpty then
        .error "No overlapping data found for correlation analysis"
      else .ok (analysisRecord pval (joinRows w s) sym city tf sd ed) := by
  rw [perform_correlation_analysis, align_ok w s hw hs]

/-- C2 (amended): with both input lists non-empty, `analyze` raises the
NoOverlappingData `ValueError` exactly when the two series share no
calendar date and returns a `CorrelationAnalysis` exactly when they share
one, and these are the only outcomes; when either input list is empty, the
dataframe merge instead raises `KeyError: 'date'`, which propagates — so
at empty input the claimed NoOverlappingData error does not occur even
though zero dates are shared. -/
theorem C2_analyze_error_conditions (pval : ℕ → ℝ → ℝ) (w : List WeatherData)
    (s : List StockData) (sym city tf : String) (sd ed : ℤ) :
    (w ≠ [] → s ≠ [] →
      ((perform_correlation_analysis pval w s sym city tf sd ed =
          .error "No overlapping data found for correlation analysis" ↔
        ¬ ∃ wd ∈ w, ∃ sdd ∈ s, wd.date = sdd.date) ∧
       ((∃ a, perform_correlation_analysis pval w s sym city tf sd ed = .ok a) ↔
        ∃ wd ∈ w, ∃ sdd ∈ s, wd.date = sdd.date))) ∧
    (w = [] ∨ s = [] →
      perform_correlation_analysis pval w s sym city tf sd ed =
        .error "KeyError: date") := by
  constructor
  · intro hw hs
    rw [perform_unfold pval w s sym city tf sd ed hw hs]
    by_cases hnil : joinRows w s = []
    · have hno : ¬ ∃ wd ∈ w, ∃ sdd ∈ s, wd.date = sdd.date :=
        (joinRows_eq_nil_iff w s).1 hnil
      rw [hnil, if_pos List.isEmpty_nil]
      exact ⟨iff_of_true rfl hno, iff_of_false (by simp) hno⟩
    · have hyes : ∃ wd ∈ w, ∃ sdd ∈ s, wd.date = sdd.date := by
        by_contra hno
        exact hnil ((joinRows_eq_nil_iff w s).2 hno)
      rw [if_neg (fun h => hnil (List.isEmpty_iff.1 h))]
      exact ⟨iff_of_false (by simp) (fun hno => hno hyes),
        iff_of_true ⟨_, rfl⟩ hyes⟩
  · intro hempty
    rw [perform_correlation_analysis, align_weather_stock_data,
      if_pos (show w.isEmpty = true ∨ s.isEmpty = true by
        simpa [List.isEmpty_iff] using hempty)]

/-- Witness for C2 at concrete inputs: one shared date yields a record, and
an empty weather list yields the KeyError. -/
theorem C2_analyze_error_conditions_witness :
    (∃ a, perform_correlation_analysis pval0 [wd0] [sd0] "AAPL" "NYC" "1M" 0 0 = .ok a) ∧
    perform_correlation_analysis pval0 [] [sd0] "AAPL" "NYC" "1M" 0 0 =
      .error "KeyError: date" :=
  ⟨((C2_analyze_error_conditions pval0 [wd0] [sd0] "AAPL" "NYC" "1M" 0 0).1
      (by simp) (by simp)).2.mpr ⟨wd0, by simp, sd0, by simp, rfl⟩,
   (C2_analyze_error_conditions pval0 [] [sd0] "AAPL" "NYC" "1M" 0 0).2 (Or.inl rfl)⟩

/-- Counterexample to C2 as stated: with an empty weather list the two
series share zero calendar dates, yet `analyze` does not fail with the
NoOverlappingData error — the dataframe merge's `KeyError: 'date'`
propagates instead. -/
theorem C2_counterexample :
    (¬ ∃ wd ∈ ([] : List WeatherData), ∃ sdd ∈ [sd0], wd.date = sdd.date) ∧
    perform_correlation_analysis pval0 [] [sd0] "AAPL" "NYC" "1M" 0 0 =
      .error "KeyError: date" ∧
    perform_correlation_analysis pval0 [] [sd0] "AAPL" "NYC" "1M" 0 0 ≠
      .error "No overlapping data found for correlation analysis" := by
  have h : perform_correlation_analysis pval0 [] [sd0] "AAPL" "NYC" "1M" 0 0 =
      .error "KeyError: date" := by
    rw [perform_correlation_analysis, align_weather_stock_data,
      if_pos (show ([] : List WeatherData).isEmpty = true ∨
        ([sd0] : List StockData).isEmpty = true from Or.inl rfl)]
  refine ⟨by simp, h, ?_⟩
  rw [h]
  intro hbad
  have : "KeyError: date" = "No overlapping data found for correlation analysis" :=
    by injection hbad
  exact absurd this (by decide)

/-- Cons unfolding of the inner join. -/
theorem joinRows_cons (wd : WeatherData) (w : List WeatherData) (s : List StockData) :
    joinRows (wd :: w) s =
      ((s.filter fun sd => sd.date == wd.date).map (mkRow wd)) ++ joinRows w s := by
  simp [joinRows]

/-- With stock dates unique, each weather row matches at most one stock
row: the match count is 1 or 0 according to membership. -/
theorem filter_date_length (s : List StockData) (d : ℤ)
    (hs : (s.map (·.date)).Nodup) :
    (s.filter fun sd => sd.date == d).length =
      if d ∈ s.map (·.date) then 1 else 0 := by
  induction s with
  | nil => simp
  | cons a t ih =>
    simp only [List.map_cons, List.nodup_cons] at hs
    obtain ⟨ha, ht⟩ := hs
    by_cases hd : a.date = d
    · rw [List.filter_cons, if_pos (by simp [hd])]
      have hnot : d ∉ t.map (·.date) := hd ▸ ha
      rw [List.length_cons, ih ht, if_neg hnot]
      simp [hd]
    · rw [List.filter_cons, if_neg (by simp [hd])]
      rw [ih ht]
      simp [Ne.symm hd]

/-- The date column of the join, with stock dates unique: the weather date
column restricted to shared dates, in weather order. -/
theorem joinRows_dates (w : List WeatherData) (s : List StockData)
    (hs : (s.map (·.date)).Nodup) :
    (joinRows w s).map (·.date) =
      (w.map (·.date)).filter fun d => decide (d ∈ s.map (·.date)) := by
  induction w with
  | nil => simp [joinRows]
  | cons wd w ih =>
    rw [joinRows_cons, List.map_append, ih, List.map_cons, List.filter_cons]
    have hmapdate : ((s.filter fun sd => sd.date == wd.date).map (mkRow wd)).map (·.date) =
        List.replicate (s.filter fun sd => sd.date == wd.date).length wd.date := by
      rw [List.map_map]
      exact List.map_const' _ wd.date
    by_cases hmem : wd.date ∈ s.map (·.date)
    · rw [hmapdate, filter_date_length s wd.date hs, if_pos hmem]
      simp [hmem]
    · rw [hmapdate, filter_date_length s wd.date hs, if_neg hmem]
      simp [hmem]

/-- Every joined row combines a weather and a stock observation sharing a
calendar date. -/
theorem joinRows_mem (w : List WeatherData) (s : List StockData) :
    ∀ r ∈ joinRows w s, ∃ wd ∈ w, ∃ sd ∈ s, wd.date = sd.date ∧ r = mkRow wd sd := by
  intro r hr
  rw [joinRows, List.mem_flatMap] at hr
  obtain ⟨wd, hwd, hr⟩ := hr
  rw [List.mem_map] at hr
  obtain ⟨sd, hsd, hr⟩ := hr
  rw [List.mem_filter] at hsd
  exact ⟨wd, hwd, sd, hsd.1, (beq_iff_eq.1 hsd.2).symm, hr.symm⟩

/-- C5 (amended): when each input list has pairwise-distinct calendar
dates, the aligned sample has exactly one row per shared date (its date
column is the weather date column restricted to shared dates), its rows are
unique by date, its row count is at most `min` of the input lengths, and it
is ascending by date whenever the weather input is; without those
hypotheses pandas emits one row per matching pair in weather-input order
(see the counterexample).  The aligner itself succeeds exactly on non-empty
inputs. -/
theorem C5_align_properties (w : List WeatherData) (s : List StockData)
    (hw : (w.map (·.date)).Nodup) (hs : (s.map (·.date)).Nodup) :
    (w ≠ [] → s ≠ [] → align_weather_stock_data w s = .ok (joinRows w s)) ∧
    ((joinRows w s).map (·.date) =
      (w.map (·.date)).filter fun d => decide (d ∈ s.map (·.date))) ∧
    (∀ d : ℤ, d ∈ (joinRows w s).map (·.date) ↔
      d ∈ w.map (·.date) ∧ d ∈ s.map (·.date)) ∧
    ((joinRows w s).map (·.date)).Nodup ∧
    (joinRows w s).length ≤ min w.length s.length ∧
    ((w.map (·.date)).Pairwise (· ≤ ·) →
      ((joinRows w s).map (·.date)).Pairwise (· ≤ ·)) ∧
    (∀ r ∈ joinRows w s, ∃ wd ∈ w, ∃ sd ∈ s, wd.date = sd.date ∧ r = mkRow wd sd) := by
  have hdates := joinRows_dates w s hs
  have hnodup : ((joinRows w s).map (·.date)).Nodup := by
    rw [hdates]; exact hw.filter _
  refine ⟨align_ok w s, hdates, ?_, hnodup, ?_, ?_, joinRows_mem w s⟩
  · intro d
    rw [hdates, List.mem_filter]
    simp
  · have hlen : (joinRows w s).length = ((joinRows w s).map (·.date)).length :=
      (List.length_map _ _).symm
    have hle_w : ((joinRows w s).map (·.date)).length ≤ (w.map (·.date)).length := by
      rw [hdates]; exact List.length_filter_le _ _
    have hsub : (joinRows w s).map (·.date) ⊆ s.map (·.date) := by
      intro d hd
      rw [hdates, List.mem_filter] at hd
      exact of_decide_eq_true hd.2
    have hle_s : ((joinRows w s).map (·.date)).length ≤ (s.map (·.date)).length := by
      rw [← List.toFinset_card_of_nodup hnodup]
      exact le_trans (Finset.card_le_card fun d hd =>
        List.mem_toFinset.2 (hsub (List.mem_toFinset.1 hd))) (s.map (·.date)).toFinset_card_le
    rw [hlen]
    exact le_min (by simpa using hle_w) (by simpa using hle_s)
  · intro hsorted
    rw [hdates]
    exact hsorted.filter _

/-- Counterexample to C5 as stated: with duplicated and out-of-order dates
(weather dates `[2, 1, 1]`, stock dates `[1, 1, 2]`) the merge emits one
row per matching pair in weather order — date column `[2, 1, 1, 1, 1]` —
which is not ascending, not unique by date, and longer than both inputs. -/
theorem C5_counterexample :
    (joinRows wDup sDup).map (·.date) = [2, 1, 1, 1, 1] ∧
    ¬ ((joinRows wDup sDup).map (·.date)).Pairwise (· ≤ ·) ∧
    ¬ ((joinRows wDup sDup).map (·.date)).Nodup ∧
    ¬ ((joinRows wDup sDup).length ≤ min wDup.length sDup.length) := by
  have h : (joinRows wDup sDup).map (·.date) = [2, 1, 1, 1, 1] := by
    simp [joinRows, wDup, sDup, mkRow]
  refine ⟨h, ?_, ?_, ?_⟩
  · rw [h]; decide
  · rw [h]; decide
  · have hlen : (joinRows wDup sDup).length = 5 := by
      have := congrArg List.length h
      simpa using this
    rw [hlen]
    decide

/-- Witness for C5 at well-formed two-day inputs. -/
theorem C5_align_properties_witness :
    ((wTwo.map (·.date)).Nodup ∧ (sTwo.map (·.date)).Nodup) ∧
    (joinRows wTwo sTwo).length ≤ min wTwo.length sTwo.length :=
  ⟨⟨by simp [wTwo], by simp [sTwo]⟩,
    (C5_align_properties wTwo sTwo (by simp [wTwo]) (by simp [sTwo])).2.2.2.2.1⟩

/-- Inserting into the sorted list permutes consing. -/
theorem insertDesc_perm (e : SignificantEvent) (l : List SignificantEvent) :
    (insertDesc e l).Perm (e :: l) := by
  induction l with
  | nil => exact List.Perm.refl _
  | cons a as ih =>
    rw [insertDesc]
    split_ifs
    · exact ((ih.cons a).trans (List.Perm.swap e a as))
    · exact List.Perm.refl _

/-- The stable sort permutes its input. -/
theorem sortDesc_perm (l : List SignificantEvent) : (sortDesc l).Perm l := by
  induction l with
  | nil => exact List.Perm.refl _
  | cons x xs ih =>
    rw [sortDesc]
    exact (insertDesc_perm x (sortDesc xs)).trans (ih.cons x)

/-- Insertion preserves descending sortedness of the impact key. -/
theorem insertDesc_pairwise (e : SignificantEvent) (l : List SignificantEvent)
    (hl : l.Pairwise fun a b => b.correlation_impact ≤ a.correlation_impact) :
    (insertDesc e l).Pairwise fun a b => b.correlation_impact ≤ a.correlation_impact := by
  induction l with
  | nil => simp [insertDesc]
  | cons a as ih =>
    rw [List.pairwise_cons] at hl
    obtain ⟨ha, has⟩ := hl
    rw [insertDesc]
    split_ifs with hlt
    · rw [List.pairwise_cons]
      refine ⟨?_, ih has⟩
      intro x hx
      rcases List.mem_cons.1 ((insertDesc_perm e as).mem_iff.1 hx) with hx | hx
      · exact hx ▸ le_of_lt hlt
      · exact ha x hx
    · rw [List.pairwise_cons]
      refine ⟨?_, List.pairwise_cons.2 ⟨ha, has⟩⟩
      intro x hx
      rcases List.mem_cons.1 hx with hx | hx
      · exact hx ▸ le_of_not_lt hlt
      · exact le_trans (ha x hx) (le_of_not_lt hlt)

/-- The stable sort is descending on the impact key. -/
theorem sortDesc_pairwise (l : List SignificantEvent) :
    (sortDesc l).Pairwise fun a b => b.correlation_impact ≤ a.correlation_impact := by
  induction l with
  | nil => simp [sortDesc]
  | cons x xs ih => exact insertDesc_pairwise x (sortDesc xs) ih

/-- Stability of a single insertion: the subsequence at any fixed impact
value gains the inserted element at its front exactly when the values
match, because the walked-over prefix has strictly larger impact. -/
theorem insertDesc_filter (e : SignificantEvent) (l : List SignificantEvent) (v : ℝ) :
    (insertDesc e l).filter (fun x => decide (x.correlation_impact = v)) =
      if e.correlation_impact = v then
        e :: l.filter (fun x => decide (x.correlation_impact = v))
      else l.filter (fun x => decide (x.correlation_impact = v)) := by
  induction l with
  | nil =>
    rw [insertDesc]
    by_cases hev : e.correlation_impact = v
    · rw [if_pos hev]
      simp [hev]
    · rw [if_neg hev]
      simp [hev]
  | cons a as ih =>
    by_cases hlt : e.correlation_impact < a.correlation_impact
    · by_cases hev : e.correlation_impact = v
      · have hav : ¬ a.correlation_impact = v := by
          intro hav
          rw [hav, ← hev] at hlt
          exact lt_irrefl _ hlt
        rw [insertDesc, if_pos hlt, List.filter_cons, ih]
        simp [hev, hav]
      · by_cases hav : a.correlation_impact = v
        · rw [insertDesc, if_pos hlt, List.filter_cons, ih]
          simp [hev, hav]
        · rw [insertDesc, if_pos hlt, List.filter_cons, ih]
          simp [hev, hav]
    · by_cases hev : e.correlation_impact = v
      · rw [insertDesc, if_neg hlt]
        simp [List.filter_cons, hev]
      · rw [insertDesc, if_neg hlt]
        simp [List.filter_cons, hev]

/-- Stability of the sort: ties keep their encounter order, expressed as
preservation of the subsequence at every fixed impact value. -/
theorem sortDesc_filter (l : List SignificantEvent) (v : ℝ) :
    (sortDesc l).filter (fun x => decide (x.correlation_impact = v)) =
      l.filter (fun x => decide (x.correlation_impact = v)) := by
  induction l with
  | nil => rfl
  | cons x xs ih =>
    rw [sortDesc, insertDesc_filter, List.filter_cons]
    by_cases hxv : x.correlation_impact = v
    · rw [if_pos hxv, if_pos (by simpa using hxv), ih]
    · rw [if_neg hxv, if_neg (by simpa using hxv), ih]

/-- C7: the detector classifies each weather day by the first matching
threshold (heat, cold, rain, wind, in that order), emits one event per
extreme day having a same-date stock row — carrying that day's percentage
change and its absolute value — and returns the stable descending sort of
those events truncated to the top ten. -/
theorem C7_detect_events (w : List WeatherData) (s : List StockData) :
    detect_significant_events w s = (sortDesc (significantEventsRaw w s)).take 10 ∧
    (∀ wd : WeatherData,
      (35 < wd.temperature_avg → eventTypeOf wd = some "extreme_heat") ∧
      (¬ 35 < wd.temperature_avg → wd.temperature_avg < -10 →
        eventTypeOf wd = some "extreme_cold") ∧
      (¬ 35 < wd.temperature_avg → ¬ wd.temperature_avg < -10 →
        50 < wd.precipitation → eventTypeOf wd = some "heavy_rain") ∧
      (¬ 35 < wd.temperature_avg → ¬ wd.temperature_avg < -10 →
        ¬ 50 < wd.precipitation → 20 < wd.wind_speed →
        eventTypeOf wd = some "high_winds") ∧
      (¬ 35 < wd.temperature_avg → ¬ wd.temperature_avg < -10 →
        ¬ 50 < wd.precipitation → ¬ 20 < wd.wind_speed → eventTypeOf wd = none)) ∧
    (∀ e ∈ significantEventsRaw w s, ∃ wd ∈ w, ∃ sd,
      stockOnDate s wd.date = some sd ∧ eventTypeOf wd = some e.event_type ∧
      e.date = wd.date ∧ e.city = wd.city ∧
      e.market_impact = sd.percentage_change ∧
      e.correlation_impact = |sd.percentage_change|) ∧
    (sortDesc (significantEventsRaw w s)).Perm (significantEventsRaw w s) ∧
    (∀ v : ℝ, (sortDesc (significantEventsRaw w s)).filter
        (fun x => decide (x.correlation_impact = v)) =
      (significantEventsRaw w s).filter (fun x => decide (x.correlation_impact = v))) ∧
    (detect_significant_events w s).Pairwise
      (fun a b => b.correlation_impact ≤ a.correlation_impact) ∧
    (detect_significant_events w s).length ≤ 10 := by
  refine ⟨rfl, ?_, ?_, sortDesc_perm _, sortDesc_filter _, ?_, ?_⟩
  · intro wd
    refine ⟨fun h1 => by simp [eventTypeOf, h1],
      fun h1 h2 => by simp [eventTypeOf, h1, h2],
      fun h1 h2 h3 => by simp [eventTypeOf, h1, h2, h3],
      fun h1 h2 h3 h4 => by simp [eventTypeOf, h1, h2, h3, h4],
      fun h1 h2 h3 h4 => by simp [eventTypeOf, h1, h2, h3, h4]⟩
  · intro e he
    rw [significantEventsRaw, List.mem_filterMap] at he
    obtain ⟨wd, hwd, hmatch⟩ := he
    rcases het : eventTypeOf wd with _ | et <;> rw [het] at hmatch
    · exact absurd hmatch (by simp)
    · rcases hsd : stockOnDate s wd.date with _ | sd <;> rw [hsd] at hmatch
      · exact absurd hmatch (by simp)
      · rw [Option.some_inj] at hmatch
        exact ⟨wd, hwd, sd, hsd, by rw [het, ← hmatch],
          by rw [← hmatch], by rw [← hmatch], by rw [← hmatch], by rw [← hmatch]⟩
  · exact (sortDesc_pairwise _).sublist (List.take_sublist _ _)
  · rw [detect_significant_events]
    exact le_trans (List.length_take_le _ _) (le_refl 10)

/-- Witness for C7 at the spec's example: a 36°C day with a same-date stock
move of −3.2 produces exactly one `extreme_heat` event with market impact
−3.2 and correlation impact 3.2. -/
theorem C7_detect_events_witness :
    detect_significant_events [wHot] [sHot] =
      [{ date := 0, city := "NYC", event_type := "extreme_heat",
         market_impact := -3.2, correlation_impact := 3.2 }] ∧
    (detect_significant_events [wHot] [sHot]).length ≤ 10 := by
  have habs : |(-3.2 : ℝ)| = 3.2 := by
    rw [abs_of_neg (by norm_num : (-3.2 : ℝ) < 0)]
    norm_num
  have h : detect_significant_events [wHot] [sHot] =
      [{ date := 0, city := "NYC", event_type := "extreme_heat",
         market_impact := -3.2, correlation_impact := 3.2 }] := by
    rw [detect_significant_events, significantEventsRaw]
    norm_num [eventTypeOf, stockOnDate, wHot, sHot, List.filterMap, sortDesc,
      insertDesc, habs]
  exact ⟨h, (C7_detect_events [wHot] [sHot]).2.2.2.2.2.2⟩

open MeasureTheory

/-- The standard normal CDF is monotone. -/
theorem stdNormalCDF_mono : Monotone stdNormalCDF := by
  intro a b hab
  exact ENNReal.toReal_mono (measure_ne_top _ _)
    (measure_mono (Set.Iic_subset_Iic.2 hab))

/-- The Gaussian measure has no atoms. -/
theorem stdNormal_singleton (a : ℝ) : ProbabilityTheory.gaussianReal 0 1 {a} = 0 :=
  ProbabilityTheory.gaussianReal_absolutelyContinuous 0 one_ne_zero (by simp)

/-- Symmetry of the standard Gaussian about 0. -/
theorem stdNormal_Iic_eq_Ici :
    ProbabilityTheory.gaussianReal 0 1 (Set.Iic 0) =
      ProbabilityTheory.gaussianReal 0 1 (Set.Ici 0) := by
  have hmap : (ProbabilityTheory.gaussianReal 0 1).map ((-1 : ℝ) * ·) =
      ProbabilityTheory.gaussianReal 0 1 := by
    rw [@ProbabilityTheory.gaussianReal_map_const_mul 0 1 (-1)]
    have h1 : (-1 : ℝ) * 0 = 0 := by norm_num
    have h2 : (⟨(-1 : ℝ) ^ 2, sq_nonneg _⟩ : NNReal) * 1 = 1 := by
      rw [mul_one]
      exact Subtype.ext (by norm_num)
    rw [h1, h2]
  have hpre : Set.preimage ((-1 : ℝ) * ·) (Set.Iic 0) = Set.Ici 0 := by
    ext x
    simp only [Set.mem_preimage, Set.mem_Iic, Set.mem_Ici]
    constructor <;> intro h <;> linarith
  calc ProbabilityTheory.gaussianReal 0 1 (Set.Iic 0)
      = ((ProbabilityTheory.gaussianReal 0 1).map ((-1 : ℝ) * ·)) (Set.Iic 0) := by
        rw [hmap]
    _ = ProbabilityTheory.gaussianReal 0 1 (Set.Ici 0) := by
        rw [MeasureTheory.Measure.map_apply (measurable_const_mul (-1)) measurableSet_Iic,
          hpre]

/-- The standard normal CDF at 0 is one half. -/
theorem stdNormalCDF_zero : stdNormalCDF 0 = 1 / 2 := by
  have hIoi : ProbabilityTheory.gaussianReal 0 1 (Set.Ioi 0) =
      ProbabilityTheory.gaussianReal 0 1 (Set.Ici 0) := by
    refine le_antisymm (measure_mono Set.Ioi_subset_Ici_self) ?_
    calc ProbabilityTheory.gaussianReal 0 1 (Set.Ici 0)
        ≤ ProbabilityTheory.gaussianReal 0 1 ({0} ∪ Set.Ioi 0) := by
          refine measure_mono fun x hx => ?_
          rcases eq_or_lt_of_le (Set.mem_Ici.1 hx) with h | h
          · exact Set.mem_union_left _ (by rw [Set.mem_singleton_iff, ← h])
          · exact Set.mem_union_right _ h
      _ ≤ ProbabilityTheory.gaussianReal 0 1 {0} +
            ProbabilityTheory.gaussianReal 0 1 (Set.Ioi 0) := measure_union_le _ _
      _ = ProbabilityTheory.gaussianReal 0 1 (Set.Ioi 0) := by
          rw [stdNormal_singleton, zero_add]
  have hcompl : ProbabilityTheory.gaussianReal 0 1 (Set.Iic 0) +
      ProbabilityTheory.gaussianReal 0 1 (Set.Iic 0)ᶜ =
      ProbabilityTheory.gaussianReal 0 1 Set.univ :=
    measure_add_measure_compl measurableSet_Iic
  rw [Set.compl_Iic, measure_univ, hIoi, ← stdNormal_Iic_eq_Ici] at hcompl
  have htr : stdNormalCDF 0 + stdNormalCDF 0 = 1 := by
    rw [stdNormalCDF, ← ENNReal.toReal_add (measure_ne_top _ _) (measure_ne_top _ _),
      hcompl, ENNReal.one_toReal]
  linarith

/-- The standard normal CDF at 1 is below 0.975: the density is bounded by
`(√(2π))⁻¹ < 0.475` on `(0, 1]`. -/
theorem stdNormalCDF_one_lt : stdNormalCDF 1 < 0.975 := by
  have hsplit : ProbabilityTheory.gaussianReal 0 1 (Set.Iic 1) =
      ProbabilityTheory.gaussianReal 0 1 (Set.Iic 0) +
        ProbabilityTheory.gaussianReal 0 1 (Set.Ioc 0 1) := by
    rw [← MeasureTheory.measure_union (Set.Iic_disjoint_Ioc le_rfl) measurableSet_Ioc,
      Set.Iic_union_Ioc_eq_Iic (by norm_num : (0 : ℝ) ≤ 1)]
  have hioc : ProbabilityTheory.gaussianReal 0 1 (Set.Ioc 0 1) =
      ENNReal.ofReal (∫ x in Set.Ioc (0 : ℝ) 1, ProbabilityTheory.gaussianPDFReal 0 1 x) :=
    ProbabilityTheory.gaussianReal_apply_eq_integral 0 one_ne_zero _
  have hptwise : ∀ x ∈ Set.Ioc (0 : ℝ) 1,
      ProbabilityTheory.gaussianPDFReal 0 1 x ≤ (Real.sqrt (2 * Real.pi))⁻¹ := by
    intro x _
    rw [ProbabilityTheory.gaussianPDFReal]
    have hcoe : ((1 : NNReal) : ℝ) = 1 := NNReal.coe_one
    rw [hcoe, mul_one]
    calc (Real.sqrt (2 * Real.pi))⁻¹ * Real.exp (-(x - 0) ^ 2 / (2 * 1))
        ≤ (Real.sqrt (2 * Real.pi))⁻¹ * 1 := by
          refine mul_le_mul_of_nonneg_left ?_ (inv_nonneg.2 (Real.sqrt_nonneg _))
          rw [Real.exp_le_one_iff]
          have : (0 : ℝ) ≤ (x - 0) ^ 2 := sq_nonneg _
          linarith
      _ = (Real.sqrt (2 * Real.pi))⁻¹ := mul_one _
  have hintle : ∫ x in Set.Ioc (0 : ℝ) 1, ProbabilityTheory.gaussianPDFReal 0 1 x ≤
      (Real.sqrt (2 * Real.pi))⁻¹ := by
    have hmono := MeasureTheory.setIntegral_mono_on
      ((ProbabilityTheory.integrable_gaussianPDFReal 0 1).integrableOn)
      (MeasureTheory.integrableOn_const.2 (Or.inr (by
        rw [Real.volume_Ioc]
        exact ENNReal.ofReal_lt_top)))
      measurableSet_Ioc hptwise
    calc ∫ x in Set.Ioc (0 : ℝ) 1, ProbabilityTheory.gaussianPDFReal 0 1 x
        ≤ ∫ _x in Set.Ioc (0 : ℝ) 1, (Real.sqrt (2 * Real.pi))⁻¹ := hmono
      _ = (volume (Set.Ioc (0 : ℝ) 1)).toReal • (Real.sqrt (2 * Real.pi))⁻¹ :=
          MeasureTheory.setIntegral_const _
      _ = (Real.sqrt (2 * Real.pi))⁻¹ := by
          rw [Real.volume_Ioc]
          norm_num
  have hinv : (Real.sqrt (2 * Real.pi))⁻¹ < 0.475 := by
    have hsq : (2.2 : ℝ) < Real.sqrt (2 * Real.pi) := by
      rw [Real.lt_sqrt (by norm_num : (0 : ℝ) ≤ 2.2)]
      have := Real.pi_gt_three
      nlinarith
    have h22 : (0 : ℝ) < 2.2 := by norm_num
    have := inv_strictAnti₀ h22 hsq
    have h1 : (2.2 : ℝ)⁻¹ < 0.475 := by norm_num
    linarith
  have htoReal : stdNormalCDF 1 = stdNormalCDF 0 +
      (ProbabilityTheory.gaussianReal 0 1 (Set.Ioc 0 1)).toReal := by
    rw [stdNormalCDF, stdNormalCDF, hsplit,
      ENNReal.toReal_add (measure_ne_top _ _) (measure_ne_top _ _)]
  have hioc_le : (ProbabilityTheory.gaussianReal 0 1 (Set.Ioc 0 1)).toReal ≤
      (Real.sqrt (2 * Real.pi))⁻¹ := by
    rw [hioc, ENNReal.toReal_ofReal_eq_iff.2]
    · exact hintle
    · exact MeasureTheory.setIntegral_nonneg measurableSet_Ioc
        fun x _ => ProbabilityTheory.gaussianPDFReal_nonneg 0 1 x
  rw [htoReal, stdNormalCDF_zero]
  linarith

/-- Some real has CDF at least 0.975 (the CDF tends to 1). -/
theorem exists_cdf_ge : ∃ x : ℝ, 0.975 ≤ stdNormalCDF x := by
  have ht := MeasureTheory.tendsto_measure_Iic_atTop (ProbabilityTheory.gaussianReal 0 1)
  rw [measure_univ] at ht
  have hlt : (ENNReal.ofReal 0.975) < 1 := by
    rw [show (1 : ENNReal) = ENNReal.ofReal 1 from ENNReal.ofReal_one.symm]
    exact (ENNReal.ofReal_lt_ofReal_iff (by norm_num)).2 (by norm_num)
  obtain ⟨x, hx⟩ := ((tendsto_order.1 ht).1 _ hlt).exists
  refine ⟨x, ?_⟩
  have h1 : (ENNReal.ofReal 0.975).toReal ≤
      (ProbabilityTheory.gaussianReal 0 1 (Set.Iic x)).toReal :=
    ENNReal.toReal_mono (measure_ne_top _ _) (le_of_lt hx)
  rwa [ENNReal.toReal_ofReal (by norm_num)] at h1

/-- The 0.975 normal quantile is at least 1 (hence positive): scipy's
`norm.ppf(0.975) ≈ 1.96`. -/
theorem normPpf_ge_one : 1 ≤ normPpf 0.975 := by
  rw [normPpf]
  refine le_csInf exists_cdf_ge ?_
  intro y hy
  by_contra hlt
  push_neg at hlt
  have hcdf : stdNormalCDF y < 0.975 :=
    lt_of_le_of_lt (stdNormalCDF_mono (le_of_lt hlt)) stdNormalCDF_one_lt
  exact absurd hy (not_le.2 hcdf)

/-- Positivity of the 0.975 normal quantile. -/
theorem normPpf_pos : 0 < normPpf 0.975 :=
  lt_of_lt_of_le one_pos normPpf_ge_one

/-- Finite division in the model agrees with real division when the
divisor is non-zero. -/
theorem rf_div_fin (a b : ℝ) (hb : b ≠ 0) : RF.div (.fin a) (.fin b) = .fin (a / b) := by
  simp [RF.div, hb]

/-- Finite multiplication is exact. -/
theorem rf_mul_fin (a b : ℝ) : RF.mul (.fin a) (.fin b) = .fin (a * b) := rfl

/-- Finite subtraction is exact. -/
theorem rf_sub_fin (a b : ℝ) : RF.sub (.fin a) (.fin b) = .fin (a + -b) := rfl

/-- Finite addition is exact. -/
theorem rf_add_fin (a b : ℝ) : RF.add (.fin a) (.fin b) = .fin (a + b) := rfl

/-- `log` of a positive finite value. -/
theorem rf_log_fin_pos (a : ℝ) (ha : 0 < a) : RF.log (.fin a) = .fin (Real.log a) := by
  simp [RF.log, asymm ha, ha.ne']

/-- Unfolding of the estimator when the Fisher division succeeds. -/
theorem ci_of_ok (r : RF) (n : ℕ) (conf : ℝ) (hn : ¬ n < 3) (q : RF)
    (hq : pyDiv (RF.add (.fin 1) r) (RF.sub (.fin 1) r) = .ok q) :
    calculate_confidence_interval r n conf =
      [RF.div
          (RF.sub (RF.exp (RF.mul (.fin 2) (RF.sub (RF.mul (.fin (1 / 2)) (RF.log q))
            (RF.mul (.fin (normPpf (1 - (1 - conf) / 2)))
              (RF.div (.fin 1) (RF.sqrt (.fin ((n : ℝ) - 3)))))))) (.fin 1))
          (RF.add (RF.exp (RF.mul (.fin 2) (RF.sub (RF.mul (.fin (1 / 2)) (RF.log q))
            (RF.mul (.fin (normPpf (1 - (1 - conf) / 2)))
              (RF.div (.fin 1) (RF.sqrt (.fin ((n : ℝ) - 3)))))))) (.fin 1)),
       RF.div
          (RF.sub (RF.exp (RF.mul (.fin 2) (RF.add (RF.mul (.fin (1 / 2)) (RF.log q))
            (RF.mul (.fin (normPpf (1 - (1 - conf) / 2)))
              (RF.div (.fin 1) (RF.sqrt (.fin ((n : ℝ) - 3)))))))) (.fin 1))
          (RF.add (RF.exp (RF.mul (.fin 2) (RF.add (RF.mul (.fin (1 / 2)) (RF.log q))
            (RF.mul (.fin (normPpf (1 - (1 - conf) / 2)))
              (RF.div (.fin 1) (RF.sqrt (.fin ((n : ℝ) - 3)))))))) (.fin 1))] := by
  rw [calculate_confidence_interval, if_neg hn, hq]

/-- C8 (amended): the estimator is a total function always returning a
two-element interval; `n < 3` returns `[0.0, 0.0]`; `r = 1` raises the only
possible exception of the `try` block (a `ZeroDivisionError` in the plain
float Fisher division), which the `except` maps to `[0.0, 0.0]`.  But
`r = -1` is not a failure: `np.log(0.0) = -inf` with only a warning, the
transform saturates, and the estimator returns `[-1.0, -1.0]` (see the
counterexample). -/
theorem C8_confidence_interval_safe :
    (∀ (r : RF) (n : ℕ) (conf : ℝ), (calculate_confidence_interval r n conf).length = 2) ∧
    (∀ (r : RF) (n : ℕ) (conf : ℝ), n < 3 →
      calculate_confidence_interval r n conf = [.fin 0, .fin 0]) ∧
    (∀ (n : ℕ) (conf : ℝ),
      calculate_confidence_interval (.fin 1) n conf = [.fin 0, .fin 0]) := by
  refine ⟨?_, ?_, ?_⟩
  · intro r n conf
    rw [calculate_confidence_interval]
    split
    · rfl
    · split
      · rfl
      · rfl
  · intro r n conf h
    rw [calculate_confidence_interval, if_pos h]
  · intro n conf
    rw [calculate_confidence_interval]
    by_cases h : n < 3
    · rw [if_pos h]
    · rw [if_neg h]
      have hb : pyDiv (RF.add (.fin 1) (.fin 1)) (RF.sub (.fin 1) (.fin 1)) =
          .error "ZeroDivisionError" := by
        rw [rf_sub_fin]
        norm_num [pyDiv]
      rw [hb]

/-- Witness for C8: the `n < 3` default and the totality conjunct at
concrete inputs. -/
theorem C8_confidence_interval_safe_witness :
    (2 : ℕ) < 3 ∧
    calculate_confidence_interval (.fin 0) 2 0.95 = [.fin 0, .fin 0] ∧
    (calculate_confidence_interval .nan 5 0.9).length = 2 :=
  ⟨by norm_num, C8_confidence_interval_safe.2.1 (.fin 0) 2 0.95 (by norm_num),
    C8_confidence_interval_safe.1 .nan 5 0.9⟩

/-- Counterexample to C8 as stated: at `r = -1`, `n = 30` the Fisher
transform does not raise — `(1 + r)/(1 - r) = 0.0`, `np.log` yields `-inf`
with a warning, both z-bounds are `-inf`, and the back-transform returns
`[-1.0, -1.0]`, not the claimed `[0.0, 0.0]`. -/
theorem C8_counterexample :
    calculate_confidence_interval (.fin (-1)) 30 0.95 = [.fin (-1), .fin (-1)] ∧
    ([RF.fin (-1), RF.fin (-1)] : List RF) ≠ [.fin 0, .fin 0] := by
  constructor
  · have hq : pyDiv (RF.add (.fin 1) (.fin (-1))) (RF.sub (.fin 1) (.fin (-1))) =
        .ok (.fin 0) := by
      rw [rf_sub_fin, rf_add_fin]
      norm_num [pyDiv, RF.div]
    rw [ci_of_ok (.fin (-1)) 30 0.95 (by norm_num) (.fin 0) hq]
    have hlog : RF.log (.fin 0) = .ninf := by norm_num [RF.log]
    have hmul_half : RF.mul (.fin (1 / 2)) RF.ninf = .ninf := by norm_num [RF.mul]
    have hcast : ((30 : ℕ) : ℝ) - 3 = 27 := by norm_num
    have hsqrt : RF.sqrt (.fin (27 : ℝ)) = .fin (Real.sqrt 27) := by
      norm_num [RF.sqrt]
    have hsqrt_ne : Real.sqrt 27 ≠ 0 := by positivity
    have hse : RF.div (.fin 1) (.fin (Real.sqrt 27)) = .fin (1 / Real.sqrt 27) :=
      rf_div_fin 1 _ hsqrt_ne
    rw [hlog, hmul_half, hcast, hsqrt, hse, rf_mul_fin]
    have hsubinf : RF.sub RF.ninf
        (.fin (normPpf (1 - (1 - 0.95) / 2) * (1 / Real.sqrt 27))) = .ninf := rfl
    have haddinf : RF.add RF.ninf
        (.fin (normPpf (1 - (1 - 0.95) / 2) * (1 / Real.sqrt 27))) = .ninf := rfl
    rw [hsubinf, haddinf]
    have h2inf : RF.mul (.fin 2) RF.ninf = .ninf := by norm_num [RF.mul]
    rw [h2inf]
    have hexp : RF.exp RF.ninf = .fin 0 := rfl
    rw [hexp, rf_sub_fin, rf_add_fin]
    rw [rf_div_fin _ _ (by norm_num : ((0 : ℝ) + 1) ≠ 0)]
    norm_num
  · intro h
    have h1 : RF.fin (-1) = RF.fin 0 := by
      injection h
    have h2 : (-1 : ℝ) = 0 := by injection h1
    norm_num at h2

/-- `exp` of a finite value. -/
theorem rf_exp_fin (a : ℝ) : RF.exp (.fin a) = .fin (Real.exp a) := rfl

/-- The inverse Fisher transform `t ↦ (e^t - 1)/(e^t + 1)` is strictly
increasing. -/
theorem tanhForm_lt (a b : ℝ) (h : a < b) :
    (Real.exp a + -1) / (Real.exp a + 1) < (Real.exp b + -1) / (Real.exp b + 1) := by
  have ha := Real.exp_pos a
  have hb := Real.exp_pos b
  rw [div_lt_div_iff₀ (by linarith) (by linarith)]
  have hexp : Real.exp a < Real.exp b := Real.exp_lt_exp.2 h
  nlinarith

/-- The inverse Fisher transform stays within `[-1, 1]`. -/
theorem tanhForm_mem (a : ℝ) :
    -1 ≤ (Real.exp a + -1) / (Real.exp a + 1) ∧
      (Real.exp a + -1) / (Real.exp a + 1) ≤ 1 := by
  have ha := Real.exp_pos a
  constructor
  · rw [le_div_iff₀ (by linarith)]
    nlinarith
  · rw [div_le_iff₀ (by linarith)]
    nlinarith

/-- The inverse Fisher transform returns `1/2` at `log 3` (the z-image of
`r = 0.5`). -/
theorem tanhForm_mid :
    (Real.exp (2 * (1 / 2 * Real.log 3)) + -1) /
      (Real.exp (2 * (1 / 2 * Real.log 3)) + 1) = 1 / 2 := by
  rw [show (2 : ℝ) * (1 / 2 * Real.log 3) = Real.log 3 by ring,
    Real.exp_log (by norm_num : (0 : ℝ) < 3)]
  norm_num

/-- C9: at `r = 0.5`, `n = 30` and the default 0.95 confidence the
estimator returns a two-element interval `[lower, upper]` with
`lower < 0.5 < upper` and both bounds within `[-1, 1]`. -/
theorem C9_confidence_interval_at_half :
    ∃ lo hi : ℝ,
      calculate_confidence_interval (.fin 0.5) 30 0.95 = [.fin lo, .fin hi] ∧
      lo < 0.5 ∧ 0.5 < hi ∧ -1 ≤ lo ∧ lo ≤ 1 ∧ -1 ≤ hi ∧ hi ≤ 1 := by
  have hq : pyDiv (RF.add (.fin 1) (.fin 0.5)) (RF.sub (.fin 1) (.fin 0.5)) =
      .ok (.fin 3) := by
    rw [rf_sub_fin, rf_add_fin]
    norm_num [pyDiv, RF.div]
  rw [ci_of_ok (.fin 0.5) 30 0.95 (by norm_num) (.fin 3) hq]
  rw [rf_log_fin_pos 3 (by norm_num)]
  have hcast : ((30 : ℕ) : ℝ) - 3 = 27 := by norm_num
  rw [hcast]
  have hsqrt : RF.sqrt (.fin (27 : ℝ)) = .fin (Real.sqrt 27) := by norm_num [RF.sqrt]
  rw [hsqrt, rf_div_fin 1 _ (by positivity : Real.sqrt 27 ≠ 0)]
  simp only [rf_mul_fin, rf_sub_fin, rf_add_fin, rf_exp_fin]
  have hden1 : Real.exp (2 * (1 / 2 * Real.log 3 +
      -(normPpf (1 - (1 - 0.95) / 2) * (1 / Real.sqrt 27)))) + 1 ≠ 0 := by positivity
  have hden2 : Real.exp (2 * (1 / 2 * Real.log 3 +
      normPpf (1 - (1 - 0.95) / 2) * (1 / Real.sqrt 27))) + 1 ≠ 0 := by positivity
  rw [rf_div_fin _ _ hden1, rf_div_fin _ _ hden2]
  refine ⟨_, _, rfl, ?_, ?_, ?_, ?_, ?_, ?_⟩
  · have hd : 0 < normPpf (1 - (1 - 0.95) / 2) * (1 / Real.sqrt 27) := by
      have hconf : (1 - (1 - 0.95) / 2 : ℝ) = 0.975 := by norm_num
      rw [hconf]
      exact mul_pos normPpf_pos (by positivity)
    have hlt := tanhForm_lt
      (2 * (1 / 2 * Real.log 3 + -(normPpf (1 - (1 - 0.95) / 2) * (1 / Real.sqrt 27))))
      (2 * (1 / 2 * Real.log 3)) (by nlinarith)
    rw [tanhForm_mid] at hlt
    have h05 : (0.5 : ℝ) = 1 / 2 := by norm_num
    rw [h05]
    exact hlt
  · have hd : 0 < normPpf (1 - (1 - 0.95) / 2) * (1 / Real.sqrt 27) := by
      have hconf : (1 - (1 - 0.95) / 2 : ℝ) = 0.975 := by norm_num
      rw [hconf]
      exact mul_pos normPpf_pos (by positivity)
    have hlt := tanhForm_lt (2 * (1 / 2 * Real.log 3))
      (2 * (1 / 2 * Real.log 3 + normPpf (1 - (1 - 0.95) / 2) * (1 / Real.sqrt 27)))
      (by nlinarith)
    rw [tanhForm_mid] at hlt
    have h05 : (0.5 : ℝ) = 1 / 2 := by norm_num
    rw [h05]
    exact hlt
  · exact (tanhForm_mem _).1
  · exact (tanhForm_mem _).2
  · exact (tanhForm_mem _).1
  · exact (tanhForm_mem _).2

/-- A list sum of mapped values as a sum over indices. -/
theorem sum_map_eq_fin_sum {α : Type} (l : List α) (f : α → ℝ) :
    (l.map f).sum = ∑ i : Fin l.length, f (l.get i) := by
  conv_lhs => rw [← List.ofFn_get l, List.map_ofFn, List.sum_ofFn]
  rfl

/-- The centered sum of squares is non-negative. -/
theorem css_nonneg (l : List ℝ) : 0 ≤ css l := by
  rw [css]
  refine List.sum_nonneg fun a ha => ?_
  obtain ⟨t, -, rfl⟩ := List.mem_map.1 ha
  exact sq_nonneg _

/-- A column with zero centered sum of squares is constant. -/
theorem constCol_of_css_eq_zero (l : List ℝ) (h : css l = 0) : constCol l := by
  have hfin : css l = ∑ i : Fin l.length, (l.get i - lmean l) ^ 2 := by
    rw [css]
    exact sum_map_eq_fin_sum l _
  rw [hfin] at h
  have hval : ∀ i : Fin l.length, l.get i = lmean l := by
    intro i
    have hzero := (Finset.sum_eq_zero_iff_of_nonneg
      (fun j _ => sq_nonneg (l.get j - lmean l))).1 h i (Finset.mem_univ i)
    have := sq_eq_zero_iff.1 hzero
    linarith
  intro t ht
  obtain ⟨i, hi⟩ := List.mem_iff_get.1 ht
  have hhead : l.headD 0 = lmean l := by
    cases l with
    | nil => simp at ht
    | cons a as => simpa using hval ⟨0, by simp⟩
  rw [hhead, ← hi]
  exact hval i

/-- Cauchy-Schwarz for the centered sums of two equal-length columns. -/
theorem csp_sq_le (x y : List ℝ) (hlen : x.length = y.length) :
    (csp x y) ^ 2 ≤ css x * css y := by
  have hfst : (x.zip y).map Prod.fst = x := List.map_fst_zip x y (le_of_eq hlen)
  have hsnd : (x.zip y).map Prod.snd = y := List.map_snd_zip x y (le_of_eq hlen.symm)
  have keyx : ∀ m : ℝ, (x.map fun t => (t - m) ^ 2).sum =
      ∑ i : Fin (x.zip y).length, (((x.zip y).get i).1 - m) ^ 2 := by
    intro m
    conv_lhs => rw [← hfst, List.map_map]
    exact sum_map_eq_fin_sum _ _
  have keyy : ∀ m : ℝ, (y.map fun t => (t - m) ^ 2).sum =
      ∑ i : Fin (x.zip y).length, (((x.zip y).get i).2 - m) ^ 2 := by
    intro m
    conv_lhs => rw [← hsnd, List.map_map]
    exact sum_map_eq_fin_sum _ _
  have hx : css x = ∑ i : Fin (x.zip y).length, (((x.zip y).get i).1 - lmean x) ^ 2 :=
    keyx (lmean x)
  have hy : css y = ∑ i : Fin (x.zip y).length, (((x.zip y).get i).2 - lmean y) ^ 2 :=
    keyy (lmean y)
  have hxy : csp x y = ∑ i : Fin (x.zip y).length,
      (((x.zip y).get i).1 - lmean x) * (((x.zip y).get i).2 - lmean y) := by
    rw [csp]
    exact sum_map_eq_fin_sum _ _
  rw [hx, hy, hxy]
  exact Finset.sum_mul_sq_le_sq_mul_sq Finset.univ _ _

/-- The Pearson coefficient of non-degenerate columns lies in `[-1, 1]`. -/
theorem abs_pearsonR_le_one (x y : List ℝ) (hlen : x.length = y.length)
    (hx : css x ≠ 0) (hy : css y ≠ 0) : |pearsonR x y| ≤ 1 := by
  have hxpos : 0 < css x := lt_of_le_of_ne (css_nonneg x) (Ne.symm hx)
  have hypos : 0 < css y := lt_of_le_of_ne (css_nonneg y) (Ne.symm hy)
  have hprod : 0 < css x * css y := mul_pos hxpos hypos
  rw [pearsonR, abs_div, abs_of_nonneg (Real.sqrt_nonneg _),
    div_le_one (Real.sqrt_pos.2 hprod)]
  calc |csp x y| = Real.sqrt ((csp x y) ^ 2) := (Real.sqrt_sq_eq_abs _).symm
    _ ≤ Real.sqrt (css x * css y) := Real.sqrt_le_sqrt (csp_sq_le x y hlen)

/-- The degenerate-length guard of the pair correlator. -/
theorem ccwp_guard (pval : ℕ → ℝ → ℝ) (x y : List ℝ)
    (h : x.length ≠ y.length ∨ x.length < 2) :
    calculate_correlation_with_p_value pval x y = (.fin 0, .fin 1) := by
  rw [calculate_correlation_with_p_value, if_pos h]

/-- Whenever the pair correlator returns a finite coefficient, it lies in
`[-1, 1]` (guard value 0, two-point sign product, or a true Pearson
coefficient bounded through Cauchy-Schwarz). -/
theorem ccwp_coeff_bound (pval : ℕ → ℝ → ℝ) (x y : List ℝ) (v : ℝ)
    (h : (calculate_correlation_with_p_value pval x y).1 = .fin v) : |v| ≤ 1 := by
  rw [calculate_correlation_with_p_value] at h
  by_cases h1 : x.length ≠ y.length ∨ x.length < 2
  · rw [if_pos h1] at h
    simp only at h
    injection h with h0
    rw [← h0]
    norm_num
  · rw [if_neg h1] at h
    push_neg at h1
    by_cases h2 : constCol x ∨ constCol y
    · rw [if_pos h2] at h
      exact absurd h (by simp)
    · rw [if_neg h2] at h
      push_neg at h2
      by_cases h3 : x.length = 2
      · rw [if_pos h3] at h
        simp only at h
        injection h with h0
        rw [← h0, abs_mul]
        rcases Real.sign_apply_eq (x.getD 1 0 - x.getD 0 0) with hs | hs | hs <;>
          rcases Real.sign_apply_eq (y.getD 1 0 - y.getD 0 0) with hg | hg | hg <;>
            rw [hs, hg] <;> norm_num
      · rw [if_neg h3] at h
        simp only at h
        injection h with h0
        rw [← h0]
        refine abs_pearsonR_le_one x y h1.1 ?_ ?_
        · exact fun hc => h2.1 (constCol_of_css_eq_zero x hc)
        · exact fun hc => h2.2 (constCol_of_css_eq_zero y hc)

/-- The absolute mean of five finite values. -/
theorem meanAbs5_fin (v1 v2 v3 v4 v5 : ℝ) :
    meanAbs5 (.fin v1) (.fin v2) (.fin v3) (.fin v4) (.fin v5) =
      .fin ((|v1| + |v2| + |v3| + |v4| + |v5|) / 5) := by
  have hsum : ((((RF.fin v1).abs.add (RF.fin v2).abs).add (RF.fin v3).abs).add
      (RF.fin v4).abs).add (RF.fin v5).abs = .fin (|v1| + |v2| + |v3| + |v4| + |v5|) := rfl
  rw [meanAbs5, hsum, rf_div_fin _ _ (by norm_num : (5 : ℝ) ≠ 0)]

/-- C1 (amended): on a non-empty aligned sample, analyze returns the record
whose sample size is the aligned row count, whose overall correlation is
the arithmetic mean of the absolute values of the five per-variable
coefficients, whose r² is its square, and whose confidence interval is the
estimator applied to (overall, sample size) at the default 0.95 level.
When all five coefficients are finite (no zero-variance column reached
scipy's nan path), the overall correlation is a real number in `[0, 1]`;
the nan counterexample shows the range clause fails without that proviso. -/
theorem C1_analysis_invariants (pval : ℕ → ℝ → ℝ) (w : List WeatherData)
    (s : List StockData) (sym city tf : String) (sd ed : ℤ)
    (hne : joinRows w s ≠ []) :
    ∃ a, perform_correlation_analysis pval w s sym city tf sd ed = .ok a ∧
      a.sample_size = (joinRows w s).length ∧
      a.overall_correlation =
        RF.div (((((RF.abs a.temperature_correlation).add
          (RF.abs a.precipitation_correlation)).add
          (RF.abs a.humidity_correlation)).add
          (RF.abs a.wind_speed_correlation)).add
          (RF.abs a.pressure_correlation)) (.fin 5) ∧
      a.r_squared = RF.mul a.overall_correlation a.overall_correlation ∧
      a.confidence_interval =
        calculate_confidence_interval a.overall_correlation a.sample_size 0.95 ∧
      ((∃ v1, a.temperature_correlation = RF.fin v1) →
       (∃ v2, a.precipitation_correlation = RF.fin v2) →
       (∃ v3, a.humidity_correlation = RF.fin v3) →
       (∃ v4, a.wind_speed_correlation = RF.fin v4) →
       (∃ v5, a.pressure_correlation = RF.fin v5) →
       ∃ v, a.overall_correlation = RF.fin v ∧ 0 ≤ v ∧ v ≤ 1) := by
  have hw : w ≠ [] := fun hw0 => hne (by rw [hw0]; rfl)
  have hs : s ≠ [] := fun hs0 => hne (by rw [hs0]; simp [joinRows])
  refine ⟨analysisRecord pval (joinRows w s) sym city tf sd ed, ?_, rfl, rfl, rfl, rfl, ?_⟩
  · rw [perform_unfold pval w s sym city tf sd ed hw hs,
      if_neg (fun h => hne (List.isEmpty_iff.1 h))]
  · rintro ⟨v1, h1⟩ ⟨v2, h2⟩ ⟨v3, h3⟩ ⟨v4, h4⟩ ⟨v5, h5⟩
    have b1 := ccwp_coeff_bound pval _ _ v1 h1
    have b2 := ccwp_coeff_bound pval _ _ v2 h2
    have b3 := ccwp_coeff_bound pval _ _ v3 h3
    have b4 := ccwp_coeff_bound pval _ _ v4 h4
    have b5 := ccwp_coeff_bound pval _ _ v5 h5
    have hov : (analysisRecord pval (joinRows w s) sym city tf sd ed).overall_correlation =
        meanAbs5 (.fin v1) (.fin v2) (.fin v3) (.fin v4) (.fin v5) := by
      have hov0 : (analysisRecord pval (joinRows w s) sym city tf sd ed).overall_correlation =
          meanAbs5 (analysisRecord pval (joinRows w s) sym city tf sd ed).temperature_correlation
            (analysisRecord pval (joinRows w s) sym city tf sd ed).precipitation_correlation
            (analysisRecord pval (joinRows w s) sym city tf sd ed).humidity_correlation
            (analysisRecord pval (joinRows w s) sym city tf sd ed).wind_speed_correlation
            (analysisRecord pval (joinRows w s) sym city tf sd ed).pressure_correlation := rfl
      rw [hov0, h1, h2, h3, h4, h5]
    rw [hov, meanAbs5_fin]
    refine ⟨(|v1| + |v2| + |v3| + |v4| + |v5|) / 5, rfl, by positivity, ?_⟩
    rw [div_le_one (by norm_num : (0 : ℝ) < 5)]
    have a1 := abs_nonneg v1
    linarith

/-- Witness for C1 at a one-day overlap: the guard coefficients are all
0.0, so the overall correlation is the real number 0 in `[0, 1]`. -/
theorem C1_analysis_invariants_witness :
    joinRows [wd0] [sd0] ≠ [] ∧
    ∃ a, perform_correlation_analysis pval0 [wd0] [sd0] "AAPL" "NYC" "1M" 0 0 = .ok a ∧
      ∃ v, a.overall_correlation = RF.fin v ∧ 0 ≤ v ∧ v ≤ 1 := by
  have hne : joinRows [wd0] [sd0] ≠ [] := by simp [joinRows, wd0, sd0]
  obtain ⟨a, hok, -, -, -, -, hfin⟩ :=
    C1_analysis_invariants pval0 [wd0] [sd0] "AAPL" "NYC" "1M" 0 0 hne
  have hok2 : perform_correlation_analysis pval0 [wd0] [sd0] "AAPL" "NYC" "1M" 0 0 =
      .ok (analysisRecord pval0 (joinRows [wd0] [sd0]) "AAPL" "NYC" "1M" 0 0) := by
    rw [perform_unfold pval0 [wd0] [sd0] "AAPL" "NYC" "1M" 0 0 (by simp) (by simp),
      if_neg (fun h => hne (List.isEmpty_iff.1 h))]
  have ha : a = analysisRecord pval0 (joinRows [wd0] [sd0]) "AAPL" "NYC" "1M" 0 0 :=
    Except.ok.inj (hok.symm.trans hok2)
  have hlen1 : ((joinRows [wd0] [sd0]).map (·.temperature_avg)).length < 2 := by
    simp [joinRows, wd0, sd0]
  have hshort : ∀ f : AlignedRow → ℝ,
      (calculate_correlation_with_p_value pval0 ((joinRows [wd0] [sd0]).map f)
        ((joinRows [wd0] [sd0]).map (·.close_price))).1 = .fin 0 := by
    intro f
    rw [ccwp_guard pval0 _ _ (Or.inr (by simp [joinRows, wd0, sd0]))]
  refine ⟨hne, a, hok, ?_⟩
  exact hfin ⟨0, by rw [ha]; exact hshort (·.temperature_avg)⟩
    ⟨0, by rw [ha]; exact hshort (·.precipitation)⟩
    ⟨0, by rw [ha]; exact hshort (·.humidity)⟩
    ⟨0, by rw [ha]; exact hshort (·.wind_speed)⟩
    ⟨0, by rw [ha]; exact hshort (·.pressure)⟩

/-- Counterexample to C1's range clause as stated: three aligned days with
a constant close price make every per-variable coefficient scipy's
constant-input nan, so overall_correlation is nan — not a real number in
`[0, 1]`. -/
theorem C1_counterexample :
    perform_correlation_analysis pval0 wNan sNan "AAPL" "NYC" "1M" 0 0 =
      .ok (analysisRecord pval0 (joinRows wNan sNan) "AAPL" "NYC" "1M" 0 0) ∧
    (analysisRecord pval0 (joinRows wNan sNan) "AAPL" "NYC" "1M" 0 0).overall_correlation
      = RF.nan ∧
    ¬ ∃ v : ℝ, (analysisRecord pval0 (joinRows wNan sNan)
        "AAPL" "NYC" "1M" 0 0).overall_correlation = RF.fin v := by
  have hne : joinRows wNan sNan ≠ [] := by simp [joinRows, wNan, sNan]
  have hclose : (joinRows wNan sNan).map (·.close_price) = [1, 1, 1] := by
    simp [joinRows, wNan, sNan, mkRow]
  have hlen : ∀ f : AlignedRow → ℝ, ((joinRows wNan sNan).map f).length = 3 := by
    intro f
    simp [joinRows, wNan, sNan]
  have hnan : ∀ f : AlignedRow → ℝ,
      (calculate_correlation_with_p_value pval0 ((joinRows wNan sNan).map f)
        ((joinRows wNan sNan).map (·.close_price))).1 = RF.nan := by
    intro f
    rw [hclose, calculate_correlation_with_p_value,
      if_neg (by rw [hlen f]; norm_num),
      if_pos (Or.inr (by
        intro t ht
        simp only [List.headD_cons]
        simp only [List.mem_cons, List.not_mem_nil, or_false] at ht
        rcases ht with h | h | h <;> exact h))]
  have hov : (analysisRecord pval0 (joinRows wNan sNan)
      "AAPL" "NYC" "1M" 0 0).overall_correlation = RF.nan := by
    have hov0 : (analysisRecord pval0 (joinRows wNan sNan)
        "AAPL" "NYC" "1M" 0 0).overall_correlation =
        meanAbs5
          (calculate_correlation_with_p_value pval0
            ((joinRows wNan sNan).map (·.temperature_avg))
            ((joinRows wNan sNan).map (·.close_price))).1
          (calculate_correlation_with_p_value pval0
            ((joinRows wNan sNan).map (·.precipitation))
            ((joinRows wNan sNan).map (·.close_price))).1
          (calculate_correlation_with_p_value pval0
            ((joinRows wNan sNan).map (·.humidity))
            ((joinRows wNan sNan).map (·.close_price))).1
          (calculate_correlation_with_p_value pval0
            ((joinRows wNan sNan).map (·.wind_speed))
            ((joinRows wNan sNan).map (·.close_price))).1
          (calculate_correlation_with_p_value pval0
            ((joinRows wNan sNan).map (·.pressure))
            ((joinRows wNan sNan).map (·.close_price))).1 := rfl
    rw [hov0, hnan, hnan, hnan, hnan, hnan]
    rfl
  refine ⟨?_, hov, ?_⟩
  · rw [perform_unfold pval0 wNan sNan "AAPL" "NYC" "1M" 0 0 (by simp [wNan]) (by simp [sNan]),
      if_neg (fun h => hne (List.isEmpty_iff.1 h))]
  · rintro ⟨v, hv⟩
    rw [hov] at hv
    exact RF.noConfusion hv

/-- Self-pairing turns the centered product sum into the centered square
sum, for any center. -/
theorem csp_self_gen (x : List ℝ) (m : ℝ) :
    ((x.zip x).map fun p => (p.1 - m) * (p.2 - m)).sum =
      (x.map fun t => (t - m) ^ 2).sum := by
  induction x with
  | nil => rfl
  | cons a t ih =>
    rw [List.zip_cons_cons, List.map_cons, List.sum_cons, List.map_cons, List.sum_cons, ih]
    ring_nf

/-- The centered product sum of a column with itself is its centered square
sum. -/
theorem csp_self (x : List ℝ) : csp x x = css x := by
  rw [csp, css]
  exact csp_self_gen x (lmean x)

/-- The centered product sum is symmetric. -/
theorem csp_comm (x y : List ℝ) : csp x y = csp y x := by
  rw [csp, csp, ← List.zip_swap x y, List.map_map]
  congr 1
  refine List.map_congr_left fun p _ => ?_
  simp only [Function.comp_apply, Prod.fst_swap, Prod.snd_swap]
  ring

/-- The Pearson coefficient is symmetric. -/
theorem pearsonR_comm (x y : List ℝ) : pearsonR x y = pearsonR y x := by
  rw [pearsonR, pearsonR, csp_comm, mul_comm]

/-- pandas pairwise correlation is symmetric. -/
theorem pandasCorr_symm (x y : List ℝ) : pandasCorr x y = pandasCorr y x := by
  rw [pandasCorr, pandasCorr]
  by_cases h : css x = 0 ∨ css y = 0
  · rw [if_pos h, if_pos h.symm]
  · rw [if_neg h, if_neg (fun hc => h hc.symm), pearsonR_comm]

/-- pandas self-correlation of a nonzero-variance column is exactly 1. -/
theorem pandasCorr_self (x : List ℝ) (h : css x ≠ 0) : pandasCorr x x = .fin 1 := by
  rw [pandasCorr, if_neg (by simp [h]), pearsonR, csp_self,
    Real.sqrt_mul_self (css_nonneg x), div_self h]

/-- Row `i` of the coefficient matrix, for `i` in range. -/
theorem matrixRecord_row (pval : ℕ → ℝ → ℝ) (rows : List AlignedRow) (i : ℕ)
    (hi : i < 8) :
    (matrixRecord pval rows).matrix.getD i ([] : List RF) =
      List.map (fun cj => pandasCorr ((matrixColumns rows).getD i ([] : List ℝ)) cj)
        (matrixColumns rows) := by
  have hlc : (matrixColumns rows).length = 8 := rfl
  have hmat : (matrixRecord pval rows).matrix.getD i ([] : List RF) =
      ((matrixColumns rows).map fun ci =>
        (matrixColumns rows).map fun cj => pandasCorr ci cj).getD i ([] : List RF) := rfl
  rw [hmat, List.getD_eq_getElem _ _ (show i < ((matrixColumns rows).map fun ci =>
      (matrixColumns rows).map fun cj => pandasCorr ci cj).length by
        rw [List.length_map, hlc]; exact hi), List.getElem_map,
    List.getD_eq_getElem (matrixColumns rows) ([] : List ℝ) (by rw [hlc]; exact hi)]

/-- In-range entries of the coefficient matrix are the pandas pairwise
correlations of the corresponding columns. -/
theorem matrixRecord_entry (pval : ℕ → ℝ → ℝ) (rows : List AlignedRow) (i j : ℕ)
    (hi : i < 8) (hj : j < 8) :
    ((matrixRecord pval rows).matrix.getD i ([] : List RF)).getD j RF.nan =
      pandasCorr ((matrixColumns rows).getD i ([] : List ℝ))
        ((matrixColumns rows).getD j ([] : List ℝ)) := by
  have hlc : (matrixColumns rows).length = 8 := rfl
  rw [matrixRecord_row pval rows i hi,
    List.getD_eq_getElem _ _ (show j < (List.map
      (fun cj => pandasCorr ((matrixColumns rows).getD i ([] : List ℝ)) cj)
      (matrixColumns rows)).length by rw [List.length_map, hlc]; exact hj),
    List.getElem_map,
    ← List.getD_eq_getElem (matrixColumns rows) ([] : List ℝ) (by rw [hlc]; exact hj)]

/-- Out-of-range entries of the coefficient matrix default to nan. -/
theorem matrixRecord_entry_default (pval : ℕ → ℝ → ℝ) (rows : List AlignedRow)
    (i j : ℕ) (h : ¬(i < 8 ∧ j < 8)) :
    ((matrixRecord pval rows).matrix.getD i ([] : List RF)).getD j RF.nan = RF.nan := by
  have hlc : (matrixColumns rows).length = 8 := rfl
  by_cases hi : i < 8
  · have hj : ¬ j < 8 := fun hj => h ⟨hi, hj⟩
    rw [matrixRecord_row pval rows i hi,
      List.getD_eq_default _ _ (show (List.map
        (fun cj => pandasCorr ((matrixColumns rows).getD i ([] : List ℝ)) cj)
        (matrixColumns rows)).length ≤ j by
          rw [List.length_map, hlc]; exact le_of_not_lt hj)]
  · have houter : (matrixRecord pval rows).matrix.getD i ([] : List RF) = [] := by
      have hmat : (matrixRecord pval rows).matrix.getD i ([] : List RF) =
          ((matrixColumns rows).map fun ci =>
            (matrixColumns rows).map fun cj => pandasCorr ci cj).getD i ([] : List RF) :=
        rfl
      rw [hmat, List.getD_eq_default _ _ (show ((matrixColumns rows).map fun ci =>
        (matrixColumns rows).map fun cj => pandasCorr ci cj).length ≤ i by
          rw [List.length_map, hlc]; exact le_of_not_lt hi)]
    rw [houter]
    rfl

/-- The coefficient matrix is symmetric under both in-range and
out-of-range access. -/
theorem matrixRecord_symm (pval : ℕ → ℝ → ℝ) (rows : List AlignedRow) (i j : ℕ) :
    ((matrixRecord pval rows).matrix.getD i ([] : List RF)).getD j RF.nan =
      ((matrixRecord pval rows).matrix.getD j ([] : List RF)).getD i RF.nan := by
  by_cases hi : i < 8
  · by_cases hj : j < 8
    · rw [matrixRecord_entry pval rows i j hi hj, matrixRecord_entry pval rows j i hj hi,
        pandasCorr_symm]
    · rw [matrixRecord_entry_default pval rows i j (fun hc => hj hc.2),
        matrixRecord_entry_default pval rows j i (fun hc => hj hc.1)]
  · rw [matrixRecord_entry_default pval rows i j (fun hc => hi hc.1),
      matrixRecord_entry_default pval rows j i (fun hc => hi hc.2)]

/-- The p-value matrix has exact zeros on its diagonal. -/
theorem matrixRecord_pdiag (pval : ℕ → ℝ → ℝ) (rows : List AlignedRow) (i : ℕ)
    (hi : i < 8) :
    ((matrixRecord pval rows).p_values.getD i ([] : List RF)).getD i RF.nan = .fin 0 := by
  have hrow : (matrixRecord pval rows).p_values.getD i ([] : List RF) =
      List.map (fun j => if i = j then RF.fin 0
        else (calculate_correlation_with_p_value pval
          ((matrixColumns rows).getD i ([] : List ℝ))
          ((matrixColumns rows).getD j ([] : List ℝ))).2) (List.range 8) := by
    have hp : (matrixRecord pval rows).p_values.getD i ([] : List RF) =
        ((List.range 8).map fun i => (List.range 8).map fun j =>
          if i = j then RF.fin 0
          else (calculate_correlation_with_p_value pval
            ((matrixColumns rows).getD i ([] : List ℝ))
            ((matrixColumns rows).getD j ([] : List ℝ))).2).getD i ([] : List RF) := rfl
    rw [hp, List.getD_eq_getElem _ _ (show i < ((List.range 8).map fun i =>
        (List.range 8).map fun j => if i = j then RF.fin 0
          else (calculate_correlation_with_p_value pval
            ((matrixColumns rows).getD i ([] : List ℝ))
            ((matrixColumns rows).getD j ([] : List ℝ))).2).length by
        rw [List.length_map, List.length_range]; exact hi),
      List.getElem_map, List.getElem_range]
  rw [hrow, List.getD_eq_getElem _ _ (show i < (List.map (fun j =>
      if i = j then RF.fin 0
      else (calculate_correlation_with_p_value pval
        ((matrixColumns rows).getD i ([] : List ℝ))
        ((matrixColumns rows).getD j ([] : List ℝ))).2) (List.range 8)).length by
      rw [List.length_map, List.length_range]; exact hi),
    List.getElem_map, List.getElem_range, if_pos rfl]

/-- Diagonal coefficients are exactly 1 for columns of nonzero variance. -/
theorem matrixRecord_diag_one (pval : ℕ → ℝ → ℝ) (rows : List AlignedRow) (i : ℕ)
    (hi : i < 8) (h : css ((matrixColumns rows).getD i ([] : List ℝ)) ≠ 0) :
    ((matrixRecord pval rows).matrix.getD i ([] : List RF)).getD i RF.nan = .fin 1 := by
  rw [matrixRecord_entry pval rows i i hi hi, pandasCorr_self _ h]

/-- C6 (amended): the matrix builder degrades to the empty matrix only for
non-empty inputs sharing no calendar date; an empty input list makes the
dataframe merge raise `KeyError: 'date'` (it does not "never fail").  On a
non-empty merge it returns the matrix over the fixed 8-variable order,
whose coefficient matrix is symmetric with diagonal entries exactly 1.0
for every column of nonzero variance (pandas yields nan for zero-variance
columns — including the whole diagonal of a one-row sample), and whose
p-value matrix has exact zeros on the diagonal. -/
theorem C6_matrix_properties (pval : ℕ → ℝ → ℝ) (w : List WeatherData)
    (s : List StockData) :
    (w = [] ∨ s = [] →
      create_correlation_matrix pval w s = .error "KeyError: date") ∧
    (w ≠ [] → s ≠ [] → joinRows w s = [] →
      create_correlation_matrix pval w s =
        .ok { «variables» := [], matrix := [], p_values := [] }) ∧
    (w ≠ [] → s ≠ [] → joinRows w s ≠ [] →
      create_correlation_matrix pval w s = .ok (matrixRecord pval (joinRows w s))) ∧
    (matrixRecord pval (joinRows w s)).«variables» =
      ["temperature_avg", "precipitation", "humidity", "wind_speed", "pressure",
       "close_price", "percentage_change", "volume"] ∧
    (∀ i j : ℕ,
      ((matrixRecord pval (joinRows w s)).matrix.getD i ([] : List RF)).getD j RF.nan =
      ((matrixRecord pval (joinRows w s)).matrix.getD j ([] : List RF)).getD i RF.nan) ∧
    (∀ i : ℕ, i < 8 →
      ((matrixRecord pval (joinRows w s)).p_values.getD i ([] : List RF)).getD i RF.nan
        = .fin 0) ∧
    (∀ i : ℕ, i < 8 →
      css ((matrixColumns (joinRows w s)).getD i ([] : List ℝ)) ≠ 0 →
      ((matrixRecord pval (joinRows w s)).matrix.getD i ([] : List RF)).getD i RF.nan
        = .fin 1) := by
  have hunfold : w ≠ [] → s ≠ [] → create_correlation_matrix pval w s =
      if (joinRows w s).isEmpty then
        .ok { «variables» := [], matrix := [], p_values := [] }
      else .ok (matrixRecord pval (joinRows w s)) := by
    intro hw hs
    rw [create_correlation_matrix, align_ok w s hw hs]
  refine ⟨?_, ?_, ?_, rfl, matrixRecord_symm pval (joinRows w s),
    matrixRecord_pdiag pval (joinRows w s), matrixRecord_diag_one pval (joinRows w s)⟩
  · intro hempty
    rw [create_correlation_matrix, align_weather_stock_data,
      if_pos (show w.isEmpty = true ∨ s.isEmpty = true by
        simpa [List.isEmpty_iff] using hempty)]
  · intro hw hs hnil
    rw [hunfold hw hs, hnil, if_pos List.isEmpty_nil]
  · intro hw hs hnil
    rw [hunfold hw hs, if_neg (fun h => hnil (List.isEmpty_iff.1 h))]

/-- Witness for C6 at the two-day input: the success branch fires and the
temperature diagonal entry is exactly 1. -/
theorem C6_matrix_properties_witness :
    (wTwo ≠ [] ∧ sTwo ≠ [] ∧ joinRows wTwo sTwo ≠ []) ∧
    create_correlation_matrix pval0 wTwo sTwo = .ok (matrixRecord pval0 (joinRows wTwo sTwo)) ∧
    ((matrixRecord pval0 (joinRows wTwo sTwo)).matrix.getD 0 ([] : List RF)).getD 0 RF.nan
      = .fin 1 := by
  have h1 : wTwo ≠ [] := by simp [wTwo]
  have h2 : sTwo ≠ [] := by simp [sTwo]
  have h3 : joinRows wTwo sTwo ≠ [] := by simp [joinRows, wTwo, sTwo]
  have hcol : (matrixColumns (joinRows wTwo sTwo)).getD 0 ([] : List ℝ) = [0, 1] := by
    simp [matrixColumns, joinRows, wTwo, sTwo, mkRow]
  have hcss : css ((matrixColumns (joinRows wTwo sTwo)).getD 0 ([] : List ℝ)) ≠ 0 := by
    rw [hcol]
    norm_num [css, lmean]
  exact ⟨⟨h1, h2, h3⟩,
    (C6_matrix_properties pval0 wTwo sTwo).2.2.1 h1 h2 h3,
    (C6_matrix_properties pval0 wTwo sTwo).2.2.2.2.2.2 0 (by norm_num) hcss⟩

/-- Counterexample to C6 as stated: with an empty weather list (zero shared
dates) the builder does not return the empty matrix — the dataframe merge's
`KeyError: 'date'` propagates, so buildMatrix can fail. -/
theorem C6_counterexample :
    create_correlation_matrix pval0 [] [sd0] = .error "KeyError: date" ∧
    create_correlation_matrix pval0 [] [sd0] ≠
      .ok { «variables» := [], matrix := [], p_values := [] } := by
  have h : create_correlation_matrix pval0 [] [sd0] = .error "KeyError: date" := by
    rw [create_correlation_matrix, align_weather_stock_data,
      if_pos (show ([] : List WeatherData).isEmpty = true ∨
        ([sd0] : List StockData).isEmpty = true from Or.inl rfl)]
  refine ⟨h, ?_⟩
  rw [h]
  intro hbad
  exact Except.noConfusion hbad

end WeatherStock
